import Mathlib

/-!
Shallow embedding of the PDFSeek backend (`backend/app`) in Lean 4, together
with proofs settling the claims of the specification against the code.

Strings are modelled as `List Char` (`Str`) where character-level reasoning is
needed (the text post-processor), and as Lean `String` elsewhere.  Python
dictionaries are modelled as association lists.  External libraries (FAISS,
LangChain embeddings, the LLM call, the filesystem, `datetime`) are modelled
abstractly at the granularity the code uses them, as documented at each
definition.
-/

namespace PDFSeek

/-- Strings as lists of characters, for character-level reasoning. -/
abbrev Str := List Char

/-- Whitespace recognised by Python `str.strip()` / `str.split()` and by the
regex class `\s` (ASCII range; the code only ever feeds it ASCII artifacts). -/
def pyIsSpace (c : Char) : Bool :=
  c == ' ' || c == '\t' || c == '\n' || c == '\r' || c == '\x0b' || c == '\x0c'

/-- Python `s.lstrip()` (whitespace). -/
def pyLStrip (s : Str) : Str := s.dropWhile pyIsSpace

/-- Python `s.rstrip()` (whitespace): drop the maximal run of trailing
whitespace (`List.rdropWhile` is reverse-dropWhile-reverse). -/
def pyRStrip (s : Str) : Str := s.rdropWhile pyIsSpace

/-- Python `s.strip()` (whitespace). -/
def pyStrip (s : Str) : Str := pyRStrip (pyLStrip s)

/-- Python `s.rstrip('\n')`: drop the maximal run of trailing newline
characters. -/
def rstripNewlines (s : Str) : Str := s.rdropWhile (· == '\n')

/-- Python `text.replace('\\n', '\n')` — the two-character sequence
backslash-`n` becomes a newline; single left-to-right non-overlapping pass,
exactly as `str.replace`. -/
def replaceEscapedNewlines : Str → Str
  | '\\' :: 'n' :: rest => '\n' :: replaceEscapedNewlines rest
  | x :: rest => x :: replaceEscapedNewlines rest
  | [] => []

/-- Python `text.replace('\n\n', '\n')` — single left-to-right
non-overlapping pass, exactly as `str.replace`. -/
def collapseDoubleNewlines : Str → Str
  | '\n' :: '\n' :: rest => '\n' :: collapseDoubleNewlines rest
  | x :: rest => x :: collapseDoubleNewlines rest
  | [] => []

/-- The function `convert_newlines` of
`backend/app/services/text_postprocessing.py`: replace escaped newlines with
actual newlines, collapse double newlines, remove trailing newlines. -/
def convert_newlines (text : Str) : Str :=
  rstripNewlines (collapseDoubleNewlines (replaceEscapedNewlines text))

/-- Whether the two-character sequence `a b` occurs (contiguously) in `s`;
used to reason about the `str.replace` passes. -/
def hasPair (a b : Char) : Str → Bool
  | [] => false
  | [_] => false
  | x :: y :: rest => (x == a && y == b) || hasPair a b (y :: rest)

/-- Prepend a character to the first piece of a piece list (helper for
`splitDotSpace`). -/
def consHead (x : Char) : List Str → List Str
  | [] => [[x]]
  | h :: t => (x :: h) :: t

/-- Python `text.split(c)` for a single-character separator: pieces between
occurrences of `c`, always at least one piece (Mathlib's `List.splitOn` has
exactly these semantics). -/
def splitOnChar (c : Char) (s : Str) : List Str := s.splitOn c

/-- Python `paragraph.split('. ')` — split on the two-character separator
`". "`, left-to-right, non-overlapping. -/
def splitDotSpace : Str → List Str
  | [] => [[]]
  | '.' :: ' ' :: rest => [] :: splitDotSpace rest
  | x :: rest => consHead x (splitDotSpace rest)

/-- The loop of `remove_repeating_sentences` that rebuilds `current` from the
parts of `paragraph.split('. ')`: every part but the last is appended with
`'. '`, the last without — i.e. `'. '.join(parts)`. -/
def joinDotSpace : List Str → Str
  | [] => []
  | [l] => l
  | l :: ls => l ++ '.' :: ' ' :: joinDotSpace ls

/-- Python `s.split()` (no separator): maximal runs of non-whitespace
characters; `cur` accumulates the current word reversed. -/
def wordsAux (cur : Str) : Str → List Str
  | [] => if cur == [] then [] else [cur.reverse]
  | x :: rest =>
    if pyIsSpace x then
      if cur == [] then wordsAux [] rest else cur.reverse :: wordsAux [] rest
    else wordsAux (x :: cur) rest

/-- Python `' '.join(sentence.split())`: the whitespace-normalised form used
as the duplicate-detection key in `remove_repeating_sentences`. -/
def normalizeWs (s : Str) : Str :=
  List.intercalate [' '] (wordsAux [] s)

/-- The duplicate-removal loop of `remove_repeating_sentences`: keep a
sentence iff its whitespace-normalised form has not been seen yet. -/
def dedupeBySeen (seen : List Str) : List Str → List Str
  | [] => []
  | s :: rest =>
    if normalizeWs s ∈ seen then dedupeBySeen seen rest
    else s :: dedupeBySeen (normalizeWs s :: seen) rest

/-- The sentence list built by `remove_repeating_sentences` before duplicate
removal: for each `'\n'`-separated paragraph, `current` is rebuilt from the
parts of `paragraph.split('. ')` (which reconstitutes the paragraph), and
`current.strip()` is kept when non-empty. -/
def sentencesOf (text : Str) : List Str :=
  ((splitOnChar '\n' text).map (fun p => pyStrip (joinDotSpace (splitDotSpace p)))).filter
    (· ≠ [])

/-- The function `remove_repeating_sentences` of
`backend/app/services/text_postprocessing.py`: split into sentences, drop
repeats (first occurrence kept, comparison on whitespace-normalised form),
rejoin with `'\n\n'`. -/
def remove_repeating_sentences (text : Str) : Str :=
  List.intercalate ['\n', '\n'] (dedupeBySeen [] (sentencesOf text))

/-!
The `filter_model_metadata` pass applies `re.sub(pattern, '', text,
flags=re.MULTILINE)` for eleven fixed patterns in order.  Each pattern is
compiled here to a matcher `Str → Option Nat` giving the length of the match
starting at the given position (following Python leftmost, greedy/lazy
backtracking preference), `none` when no match starts there.  None of the
eleven patterns can match the empty string (each requires at least one
character), which the substitution loop relies on.
-/

/-- A matcher: length of the (preferred) regex match starting at the head of
the input, if any. -/
abbrev Matcher := Str → Option Nat

/-- Regex `$` with `re.MULTILINE`: end of string or just before a `'\n'`. -/
def dollarAt : Str → Bool
  | [] => true
  | c :: _ => c == '\n'

/-- Regex `cls*$` (greedy): consume the longest run of `cls`-characters after
which `$` holds.  Greedy `*` prefers the longest run and backtracks until `$`
matches, i.e. the result is the largest `k` within the maximal run such that
the position after `k` characters is end-of-string or before `'\n'`. -/
def classStarDollar (cls : Char → Bool) (s : Str) : Option Nat :=
  (List.range ((s.takeWhile cls).length + 1)).reverse.find? (fun k => dollarAt (s.drop k))

/-- Sequence two matchers (no backtracking across the boundary; each use
below is justified at the pattern definition by disjointness of the
components). -/
def mseq (p q : Matcher) : Matcher := fun s =>
  match p s with
  | none => none
  | some k =>
    match q (s.drop k) with
    | none => none
    | some j => some (k + j)

/-- Literal string matcher. -/
def mlit (w : Str) : Matcher := fun s => if w.isPrefixOf s then some w.length else none

/-- Regex `cls*` compiled as maximal munch.  Exact for the uses below, where
the component following the star can never match a `cls`-character, so the
greedy engine never backtracks into the run. -/
def mclassStar (cls : Char → Bool) : Matcher := fun s => some ((s.takeWhile cls).length)

/-- Regex `cls+` compiled as maximal munch (same disjointness proviso). -/
def mclassPlus (cls : Char → Bool) : Matcher := fun s =>
  let k := (s.takeWhile cls).length
  if k = 0 then none else some k

/-- Regex `\s*` before a non-whitespace literal: maximal munch. -/
def mws : Matcher := mclassStar (pyIsSpace ·)

/-- Regex `\s*$` (greedy star with multiline anchor). -/
def mwsDollar : Matcher := classStarDollar (pyIsSpace ·)

/-- Regex `.*$` without `re.DOTALL`: `.` excludes `'\n'`, so the greedy run
stops at the line end, where `$` necessarily holds. -/
def mdotStarDollar : Matcher := fun s => some ((s.takeWhile (· ≠ '\n')).length)

/-- Regex `.*?\)\s*$` (lazy `.*?`): try to close at the nearest `')'` on the
current line and fall back to later ones when `\s*$` fails after it; `.`
cannot cross a `'\n'`. -/
def mlazyParenTail : Str → Option Nat
  | [] => none
  | c :: rest =>
    if c == ')' then
      match mwsDollar rest with
      | some j => some (1 + j)
      | none =>
        match mlazyParenTail rest with
        | some j => some (1 + j)
        | none => none
    else if c == '\n' then none
    else
      match mlazyParenTail rest with
      | some j => some (1 + j)
      | none => none

/-- Pattern `end\s*$`. -/
def pat1 : Matcher := mseq (mlit "end".toList) mwsDollar

/-- Pattern `end\s*#\s*of\s*lines\s*$`. -/
def pat2 : Matcher :=
  mseq (mlit "end".toList) (mseq mws (mseq (mlit "#".toList)
    (mseq mws (mseq (mlit "of".toList) (mseq mws (mseq (mlit "lines".toList) mwsDollar))))))

/-- Tail `\s*\d+\s*\(~.*?\)\s*$` shared by the three counting patterns. -/
def countTail : Matcher :=
  mseq mws (mseq (mclassPlus (·.isDigit)) (mseq mws (mseq (mlit "(~".toList) mlazyParenTail)))

/-- Pattern `#\s*of\s*words:\s*\d+\s*\(~.*?\)\s*$`. -/
def pat3 : Matcher :=
  mseq (mlit "#".toList) (mseq mws (mseq (mlit "of".toList) (mseq mws
    (mseq (mlit "words:".toList) countTail))))

/-- Pattern `#\s*of\s*characters:\s*\d+\s*\(~.*?\)\s*$`. -/
def pat4 : Matcher :=
  mseq (mlit "#".toList) (mseq mws (mseq (mlit "of".toList) (mseq mws
    (mseq (mlit "characters:".toList) countTail))))

/-- Pattern `#\s*of\s*unique\s*words:\s*\d+\s*\(~.*?\)\s*$`. -/
def pat5 : Matcher :=
  mseq (mlit "#".toList) (mseq mws (mseq (mlit "of".toList) (mseq mws
    (mseq (mlit "unique".toList) (mseq mws (mseq (mlit "words:".toList) countTail))))))

/-- Pattern `\\end\{code\}\s*$` (literal `\end{code}`). -/
def pat6 : Matcher := mseq (mlit "\\end\x7bcode\x7d".toList) mwsDollar

/-- Pattern `\\begin\{code\}\s*$` (literal `\begin{code}`). -/
def pat7 : Matcher := mseq (mlit "\\begin\x7bcode\x7d".toList) mwsDollar

/-- Character class `[.\s]` (resp. `[\s.]`). -/
def dotOrSpace (c : Char) : Bool := c == '.' || pyIsSpace c

/-- Pattern `\\section\*\s*\{[.\s]*\}\s*$`. -/
def pat8 : Matcher :=
  mseq (mlit "\\section*".toList) (mseq mws (mseq (mlit "\x7b".toList)
    (mseq (mclassStar dotOrSpace) (mseq (mlit "\x7d".toList) mwsDollar))))

/-- Pattern `\\section\*.*$`. -/
def pat9 : Matcher := mseq (mlit "\\section*".toList) mdotStarDollar

/-- Pattern `\{[\s.]*\}\s*$`. -/
def pat10 : Matcher :=
  mseq (mlit "\x7b".toList) (mseq (mclassStar dotOrSpace) (mseq (mlit "\x7d".toList) mwsDollar))

/-- Pattern `[.\s]{50,}\s*$`: greedy bounded-below repetition of `[.\s]`,
preferring the longest repetition, then `\s*$`. -/
def pat11 : Matcher := fun s =>
  let m := (s.takeWhile dotOrSpace).length
  ((List.range (m + 1)).reverse.filter (50 ≤ ·)).findSome? (fun k =>
    (mwsDollar (s.drop k)).map (k + ·))

/-- Python `re.sub(pattern, '', text, flags=re.MULTILINE)`: scan left to
right; at each position delete the preferred match if one starts there and
continue after it, else keep the character.  `fuel` bounds the recursion
(every step consumes at least one character: no pattern matches the empty
string). -/
def reSubEmpty (p : Matcher) : Nat → Str → Str
  | 0, s => s
  | _ + 1, [] => []
  | fuel + 1, c :: rest =>
    match p (c :: rest) with
    | some (k + 1) => reSubEmpty p fuel ((c :: rest).drop (k + 1))
    | some 0 => c :: reSubEmpty p fuel rest
    | none => c :: reSubEmpty p fuel rest

/-- Apply one `re.sub(pattern, '', text, flags=re.MULTILINE)` pass. -/
def applyPat (p : Matcher) (s : Str) : Str := reSubEmpty p s.length s

/-- The eleven patterns of `filter_model_metadata`, in source order. -/
def metadataPatterns : List Matcher :=
  [pat1, pat2, pat3, pat4, pat5, pat6, pat7, pat8, pat9, pat10, pat11]

/-- The function `filter_model_metadata` of
`backend/app/services/text_postprocessing.py`: apply the eleven `re.sub`
passes in order, then `text.rstrip()`. -/
def filter_model_metadata (text : Str) : Str :=
  pyRStrip (metadataPatterns.foldl (fun t p => applyPat p t) text)

/-- The function `postprocess_text` of
`backend/app/services/text_postprocessing.py`: newline conversion, then
repeated-sentence removal, then artifact stripping. -/
def postprocess_text (text : Str) : Str :=
  filter_model_metadata (remove_repeating_sentences (convert_newlines text))

/-- Python `str(...)` then `.strip()` on a Lean `String`. -/
def pyStripString (s : String) : String := (pyStrip s.toList).asString

/-- `postprocess_text` lifted to Lean `String`. -/
def postprocessString (s : String) : String := (postprocess_text s.toList).asString

/-!
Python dictionaries with string keys are modelled as association lists; the
binding order is irrelevant to every claim proved here.
-/

/-- Python `d.get(k)` / `d[k]`. -/
def dictGet {α : Type} (d : List (String × α)) (k : String) : Option α :=
  (d.find? (fun kv => kv.1 == k)).map (·.2)

/-- Python `d[k] = v`. -/
def dictSet {α : Type} (d : List (String × α)) (k : String) (v : α) : List (String × α) :=
  (k, v) :: d.filter (fun kv => kv.1 ≠ k)

/-- Python `del d[k]` (no error when absent; callers guard membership). -/
def dictErase {α : Type} (d : List (String × α)) (k : String) : List (String × α) :=
  d.filter (fun kv => kv.1 ≠ k)

/-!
Vector store (`backend/app/services/vector_store.py`).  A FAISS store is
modelled by the chunks it holds; the numerical vector of a chunk is abstracted
to the identity of the embedding provider that computed it (`provider`), which
is all the claims need.  Nearest-neighbour geometry is abstracted:
`similarity_search` returns the first `min k n` stored chunks, exact for the
emptiness/provenance facts proved here.  The embedding objects created by
`_create_embeddings` are likewise identified by their type string (the
missing-credential failure for OpenAI embeddings is outside every claim).
-/

/-- A chunk held by a FAISS store: original text plus the provider whose
vectors encode it. -/
structure Chunk where
  text : String
  provider : String
deriving DecidableEq

/-- A FAISS store: stored chunks plus the embeddings object the store was
created or loaded with (used for subsequent adds and queries). -/
structure FaissStore where
  chunks : List Chunk
  embeddings : String
deriving DecidableEq

/-- `FAISS.from_texts(texts, embeddings)`: every text embedded with the given
provider. -/
def faissFromTexts (texts : List String) (emb : String) : FaissStore :=
  { chunks := texts.map (fun t => { text := t, provider := emb }), embeddings := emb }

/-- `FAISS.load_local(path, embeddings, ...)`: the persisted chunks — with the
vectors computed when they were saved — are loaded as-is; the embeddings
object passed in is only used for future queries and adds. -/
def faissLoadLocal (persisted : FaissStore) (emb : String) : FaissStore :=
  { chunks := persisted.chunks, embeddings := emb }

/-- `store.add_documents(docs)`: new texts embedded with the store's own
embeddings object. -/
def faissAddTexts (st : FaissStore) (texts : List String) : FaissStore :=
  { st with chunks := st.chunks ++ texts.map (fun t => { text := t, provider := st.embeddings }) }

/-- `store.similarity_search(query, k)` (geometry abstracted, see above). -/
def faissSimilaritySearch (st : FaissStore) (k : Nat) : List Chunk := st.chunks.take k

/-- The mutable state of the `VectorStore` singleton: `self.embedding_type`
(which also identifies `self.embeddings`, since the two are always set
together from the same string), `self.stores` (in-memory), and the `.faiss`
files of `VECTOR_STORE_DIR` (durable). -/
structure VectorStoreState where
  embedding_type : String
  stores : List (String × FaissStore)
  disk : List (String × FaissStore)
deriving DecidableEq

/-- `VectorStore.update_embeddings`: compare the types after stripping
whitespace; when different, replace the embeddings object, record the new
type, and clear all in-memory stores; otherwise do nothing. -/
def update_embeddings (vs : VectorStoreState) (embeddingType : String) : VectorStoreState :=
  let new_type := pyStripString embeddingType
  let current_type := pyStripString vs.embedding_type
  if new_type ≠ current_type then
    { embedding_type := new_type, stores := [], disk := vs.disk }
  else vs

/-- `VectorStore.get_store`: reconcile the embedding type with the model
configuration, then return the in-memory store for `docId`, loading it from
disk if persisted, else creating it seeded with the dummy text
`"Initial document"`. -/
def get_store (vs : VectorStoreState) (configEmbeddingType : String) (docId : String) :
    FaissStore × VectorStoreState :=
  let vs := if configEmbeddingType ≠ vs.embedding_type then
      update_embeddings vs configEmbeddingType
    else vs
  match dictGet vs.stores docId with
  | some st => (st, vs)
  | none =>
    match dictGet vs.disk docId with
    | some persisted =>
      let st := faissLoadLocal persisted vs.embedding_type
      (st, { vs with stores := dictSet vs.stores docId st })
    | none =>
      let st := faissFromTexts ["Initial document"] vs.embedding_type
      (st, { vs with stores := dictSet vs.stores docId st })

/-- `VectorStore.add_document`: skip empty text; otherwise add one document to
the store and persist it (`save_local`). -/
def add_document (vs : VectorStoreState) (configEmbeddingType docId text : String) :
    VectorStoreState :=
  if pyStripString text = "" then vs
  else
    let r := get_store vs configEmbeddingType docId
    let st := faissAddTexts r.1 [text]
    { r.2 with stores := dictSet r.2.stores docId st, disk := dictSet r.2.disk docId st }

/-- `VectorStore.add_texts`: skip when no texts or no non-empty texts;
otherwise add the valid chunks and persist. -/
def add_texts (vs : VectorStoreState) (configEmbeddingType docId : String)
    (texts : List String) : VectorStoreState :=
  if texts = [] then vs
  else
    let valid := texts.filter (fun t => pyStripString t ≠ "")
    if valid = [] then vs
    else
      let r := get_store vs configEmbeddingType docId
      let st := faissAddTexts r.1 valid
      { r.2 with stores := dictSet r.2.stores docId st, disk := dictSet r.2.disk docId st }

/-- `VectorStore.get_document`: `similarity_search("", k=1)` on the store for
`docId`; the first result's text, or `None` when the search is empty. -/
def get_document (vs : VectorStoreState) (configEmbeddingType docId : String) :
    Option String × VectorStoreState :=
  let r := get_store vs configEmbeddingType docId
  match faissSimilaritySearch r.1 1 with
  | d :: _ => (some d.text, r.2)
  | [] => (none, r.2)

/-- `VectorStore.delete_document`: remove the durable file if present and the
in-memory entry if present. -/
def delete_document (vs : VectorStoreState) (docId : String) : VectorStoreState :=
  { vs with disk := dictErase vs.disk docId, stores := dictErase vs.stores docId }

/-!
Model service (`backend/app/services/model_service.py`).  The configuration
dictionary `self.current_config` is modelled as a structure; its numeric
entries are Python numbers, modelled as rationals (the validation only
compares them against rational bounds).  A `model_path` key is read by the
chat service via `config.get("model_path")` but never written by
`update_config`, hence the optional field.
-/

/-- The model service's `self.current_config`. -/
structure ModelConfig where
  model_type : String
  temperature : Rat
  max_tokens : Rat
  top_p : Rat
  repeat_penalty : Rat
  n_ctx : Rat
  gpu_layers : Rat
  embedding_type : String
  model_path : Option String := none
deriving DecidableEq

/-- A partial configuration object passed to `update_config`.  A key that is
absent and a key set to `None` behave identically in every validation branch
except the `embedding_type` auto-set (which checks key presence only); the
two are identified here, which is exact for all claims proved below. -/
structure ConfigUpdate where
  model_type : Option String := none
  temperature : Option Rat := none
  top_p : Option Rat := none
  repeat_penalty : Option Rat := none
  max_tokens : Option Rat := none
  n_ctx : Option Rat := none
  gpu_layers : Option Rat := none
  embedding_type : Option String := none

/-- One entry of the `numeric_params` dictionary of `update_config`: the
field name, its bounds (`hi = none` is `float('inf')`), the printed bounds for
the error message, and the accessors tying it to the config structures. -/
structure NumParam where
  name : String
  lo : Rat
  hi : Option Rat
  loStr : String
  hiStr : String
  get : ConfigUpdate → Option Rat
  set : ModelConfig → Rat → ModelConfig

/-- The error message `f"{param} must be between {min_val} and {max_val}"`. -/
def numParamMsg (p : NumParam) : String :=
  p.name ++ " must be between " ++ p.loStr ++ " and " ++ p.hiStr

/-- The range test `min_val <= config[param] <= max_val`. -/
def numInRange (p : NumParam) (v : Rat) : Bool :=
  decide (p.lo ≤ v) && (match p.hi with | none => true | some h => decide (v ≤ h))

/-- The `numeric_params` dictionary of `update_config`, in insertion
(iteration) order. -/
def numeric_params : List NumParam :=
  [ ⟨"temperature", 0, some 2, "0", "2", ConfigUpdate.temperature,
      fun c v => { c with temperature := v }⟩,
    ⟨"top_p", 0, some 1, "0", "1", ConfigUpdate.top_p,
      fun c v => { c with top_p := v }⟩,
    ⟨"repeat_penalty", 1, none, "1", "inf", ConfigUpdate.repeat_penalty,
      fun c v => { c with repeat_penalty := v }⟩,
    ⟨"max_tokens", 1, none, "1", "inf", ConfigUpdate.max_tokens,
      fun c v => { c with max_tokens := v }⟩,
    ⟨"n_ctx", 1, none, "1", "inf", ConfigUpdate.n_ctx,
      fun c v => { c with n_ctx := v }⟩,
    ⟨"gpu_layers", -1, none, "-1", "inf", ConfigUpdate.gpu_layers,
      fun c v => { c with gpu_layers := v }⟩ ]

/-- The validation loop over `numeric_params`: for each present parameter,
raise (returning the partially-updated config, as the exception leaves
`self.current_config` as mutated so far) when out of range, else store it. -/
def applyNumericParams (u : ConfigUpdate) :
    ModelConfig → List NumParam → ModelConfig × Option String
  | c, [] => (c, none)
  | c, p :: ps =>
    match p.get u with
    | none => applyNumericParams u c ps
    | some v =>
      if numInRange p v then applyNumericParams u (p.set c v) ps
      else (c, some (numParamMsg p))

/-- Error message for an unknown `model_type`. -/
def invalidModelTypeMsg : String :=
  "Invalid model type. Must be \x27openai\x27 or \x27local\x27"

/-- Error message for an unknown `embedding_type`. -/
def invalidEmbeddingTypeMsg : String :=
  "Invalid embedding type. Must be \x27huggingface\x27 or \x27openai\x27"

/-- Result of `ModelService.update_config`: the stored configuration after
the call (partially updated when a validation error was raised), the raised
error if any, and whether the vector store's embeddings are updated at the
end of a successful call. -/
structure UpdateResult where
  config : ModelConfig
  error : Option String
  shouldUpdateEmbeddings : Bool
deriving DecidableEq

/-- The tail of `update_config` after the `model_type` step: validate and
store the numeric parameters in iteration order, then `embedding_type`. -/
def updateConfigAfterModelType (c : ModelConfig) (u : ConfigUpdate) (flag : Bool) :
    UpdateResult :=
  let r := applyNumericParams u c numeric_params
  match r.2 with
  | some e => { config := r.1, error := some e, shouldUpdateEmbeddings := false }
  | none =>
    match u.embedding_type with
    | some et =>
      if et = "huggingface" ∨ et = "openai" then
        { config := { r.1 with embedding_type := et }, error := none,
          shouldUpdateEmbeddings := flag || (et ≠ r.1.embedding_type) }
      else { config := r.1, error := some invalidEmbeddingTypeMsg,
             shouldUpdateEmbeddings := false }
    | none => { config := r.1, error := none, shouldUpdateEmbeddings := flag }

/-- `ModelService.update_config`: validate-and-store `model_type` (with the
`embedding_type` auto-set when the update carries none), then the numeric
parameters, then `embedding_type`; the first failing check raises, leaving
every field stored before it updated.  On success, when `model_type` or
`embedding_type` changed, the vector store's embeddings are updated
(`shouldUpdateEmbeddings`). -/
def update_config (c : ModelConfig) (u : ConfigUpdate) : UpdateResult :=
  match u.model_type with
  | some mt =>
    if mt = "openai" ∨ mt = "local" then
      let flag := mt ≠ c.model_type
      let c := { c with model_type := mt }
      let c := if u.embedding_type.isNone then
          { c with embedding_type := if mt = "openai" then "openai" else "huggingface" }
        else c
      updateConfigAfterModelType c u flag
    else { config := c, error := some invalidModelTypeMsg, shouldUpdateEmbeddings := false }
  | none => updateConfigAfterModelType c u false

/-- The propagation step at the end of `update_config`: on success with a
changed model/embedding type, `self.vector_store.update_embeddings(...)`. -/
def model_service_update_config (c : ModelConfig) (vs : VectorStoreState)
    (u : ConfigUpdate) : UpdateResult × VectorStoreState :=
  let r := update_config c u
  if r.error.isNone ∧ r.shouldUpdateEmbeddings then
    (r, update_embeddings vs r.config.embedding_type)
  else (r, vs)

/-- Lower-case one ASCII character (Python `str.lower` on the ASCII range,
which covers every extension the service compares). -/
def pyLowerChar (c : Char) : Char :=
  if 'A' ≤ c ∧ c ≤ 'Z' then Char.ofNat (c.toNat + 32) else c

/-- Python `s.lower()` (ASCII range). -/
def pyToLower (s : String) : String := (s.toList.map pyLowerChar).asString

/-- Python `s.endswith(suffix)`. -/
def pyEndsWith (s suffix : String) : Bool := suffix.toList.isSuffixOf s.toList

/-- Find the index of the last occurrence of `c` in `p`. -/
def lastIndexOf (c : Char) (p : List Char) : Option Nat :=
  match p.reverse.findIdx? (· == c) with
  | some i => some (p.length - 1 - i)
  | none => none

/-- `os.path.splitext` (POSIX): split at the last `'.'` of the basename,
unless every character of the basename before that dot is itself a dot
(leading dots are not extension separators). -/
def splitext (p : String) : String × String :=
  let l := p.toList
  match lastIndexOf '.' l with
  | none => (p, "")
  | some di =>
    let fi := match lastIndexOf '/' l with
      | some si => si + 1
      | none => 0
    if fi ≤ di ∧ (List.range' fi (di - fi)).any (fun i => l.getD i '.' ≠ '.') then
      ((l.take di).asString, (l.drop di).asString)
    else (p, "")

/-- `self.supported_extensions` of `ModelService`. -/
def supported_extensions : List String := [".gguf", ".safetensors", ".bin", ".pt", ".pth"]

/-- `ModelService._validate_model_file`: the raised error, if any. -/
def validate_model_file (filename : String) : Option String :=
  let ext := pyToLower (splitext filename).2
  if ext ∈ supported_extensions then none
  else some ("Unsupported model file extension: " ++ ext ++
    ". Supported extensions are: " ++ String.intercalate ", " supported_extensions)

/-- The model directory on disk: path to contents (bytes as an opaque
string). -/
structure ModelFS where
  files : List (String × String)
deriving DecidableEq

/-- `ModelService.upload_local_model`: validate the extension (raising before
anything is written), then write the file and return the resolved path
(`os.path.join(self.model_dir, filename)`, for filenames without a leading
separator). -/
def upload_local_model (fs : ModelFS) (modelDir : String)
    (modelFile : String) (filename : String) : Except String (ModelFS × String) :=
  match validate_model_file filename with
  | some e => .error e
  | none =>
    let modelPath := modelDir ++ "/" ++ filename
    .ok ({ files := dictSet fs.files modelPath modelFile }, modelPath)

/-!
Session service (`backend/app/services/session_service.py`).  Timestamps are
modelled as integer seconds (`datetime.now()` supplied as a parameter);
the session files of `sessions/` are the store; `_safe_json_load` and
`_safe_json_dump` are abstracted as succeeding (their failure branches return
not-found or log-and-return-none, outside every claim proved here).
-/

/-- One persisted session record. -/
structure SessionData where
  created_at : Int
  last_accessed : Int
  document_ids : List String
  chat_history : List String
  model_config : List (String × String)
deriving DecidableEq

/-- The `sessions/` directory: session id to record. -/
abbrev SessionStore := List (String × SessionData)

/-- `self.session_timeout = timedelta(hours=24)`, in seconds. -/
def session_timeout : Int := 24 * 60 * 60

/-- `SessionService.create_session` (the fresh uuid4 is supplied). -/
def create_session (store : SessionStore) (now : Int) (newId : String) :
    String × SessionStore :=
  (newId, dictSet store newId
    { created_at := now, last_accessed := now, document_ids := [],
      chat_history := [], model_config := [] })

/-- `SessionService.delete_session`. -/
def delete_session (store : SessionStore) (sessionId : String) : Bool × SessionStore :=
  if (dictGet store sessionId).isSome then (true, dictErase store sessionId)
  else (false, store)

/-- `SessionService.get_session`: not-found when no record exists; when the
record's `last_accessed` is more than the timeout before `now`, delete it and
return not-found; otherwise refresh `last_accessed` to `now`, persist, and
return the record. -/
def get_session (store : SessionStore) (now : Int) (sessionId : String) :
    Option SessionData × SessionStore :=
  match dictGet store sessionId with
  | none => (none, store)
  | some sd =>
    if now - sd.last_accessed > session_timeout then
      ((delete_session store sessionId).2 |> fun store' => (none, store'))
    else
      let sd' := { sd with last_accessed := now }
      (some sd', dictSet store sessionId sd')

/-- `SessionService.add_document_to_session`: raise when the session is
missing or expired; append the document id when new, persisting via
`update_session`. -/
def add_document_to_session (store : SessionStore) (now : Int)
    (sessionId docId : String) : Except String (List String × SessionStore) :=
  match get_session store now sessionId with
  | (none, _) => .error "Session not found or expired"
  | (some sd, store') =>
    if docId ∈ sd.document_ids then .ok (sd.document_ids, store')
    else
      let sd' := { sd with document_ids := sd.document_ids ++ [docId] }
      .ok (sd'.document_ids, dictSet store' sessionId sd')

/-!
Chat service (`backend/app/services/chat_service.py`).  The LangGraph
pipeline `prepare_inputs → retrieve_documents → generate_response` is
modelled as function composition over the `ChatState` value (LangGraph passes
state between nodes by value; pydantic validation copies the
`chat_history` list on `ChatState` construction, so the graph never aliases
`self.session_histories`).  External capabilities are parameters: `splitText`
for `RecursiveCharacterTextSplitter.split_text`, and `llm` for the model
invocation — the prompt handed to it carries exactly the data both prompt
branches interpolate (context block, prior turns, current question); a thrown
model call is an `Except.error`.
-/

/-- A LangChain `HumanMessage`/`AIMessage`. -/
inductive ChatMsg where
  | user (content : String)
  | assistant (content : String)
deriving DecidableEq

/-- The `ChatState` pydantic model. -/
structure ChatState where
  question : String
  chat_history : List ChatMsg
  document_ids : List String
  retrieved_docs : List Chunk
  response : String
  model_type : String
  model_path : Option String
  embedding_type : String
deriving DecidableEq

/-- The data interpolated into the prompt by both prompt branches. -/
structure Prompt where
  context : String
  history : List ChatMsg
  question : String
deriving DecidableEq

/-- Modelled from the spec: `app/models/chat.py` is not in the source tree.
The chat interface accepts `{question: string, session_id: string,
document_ids?: [string]}`; the service additionally reads an optional
`model_path`.  An omitted `document_ids` is the empty list (the route tests
falsiness). -/
structure ChatRequest where
  question : String
  session_id : String
  document_ids : List String
  model_path : Option String := none
deriving DecidableEq

/-- Graph node `prepare_inputs`: append the user's question to the state's
chat history. -/
def prepare_inputs (st : ChatState) : ChatState :=
  { st with chat_history := st.chat_history ++ [ChatMsg.user st.question] }

/-- Graph node `retrieve_documents`: pull each document's stored text from
the vector store, split it into chunks, and when any chunks exist, embed them
in a temporary store and return the top five for the question; else no
retrieved documents. -/
def retrieve_documents (vs : VectorStoreState) (configEmbeddingType : String)
    (splitText : String → List String) (st : ChatState) :
    List Chunk × VectorStoreState :=
  let docsAndVs := st.document_ids.foldl
    (fun (acc : List String × VectorStoreState) docId =>
      match get_document acc.2 configEmbeddingType docId with
      | (some text, vs') => (acc.1 ++ splitText text, vs')
      | (none, vs') => (acc.1, vs'))
    ([], vs)
  let docs := docsAndVs.1
  let vs := docsAndVs.2
  if docs ≠ [] then
    let temp := faissFromTexts docs vs.embedding_type
    (faissSimilaritySearch temp 5, vs)
  else ([], vs)

/-- The fixed placeholder context substituted when retrieval is empty. -/
def emptyContextPlaceholder : String := "No relevant information found."

/-- Graph node `generate_response`: build the context block from the
retrieved chunks (placeholder when empty), invoke the model, post-process the
answer, append it to the history, and record it as the response; a thrown
model call propagates. -/
def generate_response (llm : Prompt → Except String String) (st : ChatState) :
    Except String ChatState :=
  let context0 := String.intercalate "\n\n" (st.retrieved_docs.map (·.text))
  let context := if context0 = "" then emptyContextPlaceholder else context0
  match llm { context := context, history := st.chat_history, question := st.question } with
  | .error e => .error e
  | .ok answer =>
    let answer := postprocessString answer
    .ok { st with chat_history := st.chat_history ++ [ChatMsg.assistant answer],
                  response := answer }

/-- `self.graph.invoke`: the three nodes in sequence; the vector-store
mutations of retrieval survive a generation failure. -/
def runConversationGraph (vs : VectorStoreState) (configEmbeddingType : String)
    (splitText : String → List String) (llm : Prompt → Except String String)
    (st : ChatState) : Except String ChatState × VectorStoreState :=
  let st := prepare_inputs st
  let rv := retrieve_documents vs configEmbeddingType splitText st
  let st := { st with retrieved_docs := rv.1 }
  (generate_response llm st, rv.2)

/-- The in-memory state the chat service owns: `self.session_histories` and
the vector store singleton. -/
structure ChatServiceState where
  session_histories : List (String × List ChatMsg)
  vector_store : VectorStoreState
deriving DecidableEq

/-- `ChatService._prepare_chat_state`: propagate the configured embedding
type to the vector store, then build the initial `ChatState`; pydantic copies
the history list, so the state holds a value, not an alias. -/
def prepare_chat_state (histories : List (String × List ChatMsg))
    (vs : VectorStoreState) (cfg : ModelConfig) (req : ChatRequest) :
    ChatState × VectorStoreState :=
  let vs := update_embeddings vs cfg.embedding_type
  ({ question := req.question,
     chat_history := (dictGet histories req.session_id).getD [],
     document_ids := req.document_ids,
     retrieved_docs := [], response := "",
     model_type := cfg.model_type,
     model_path := cfg.model_path,
     embedding_type := cfg.embedding_type }, vs)

/-- Stable insertion (before the first element of key not below) used to model
Python's stable `list.sort(key=...)`. -/
def stableInsertByKey (key : String → String) (f : String) :
    List String → List String
  | [] => [f]
  | g :: gs => if key f ≤ key g then f :: g :: gs else g :: stableInsertByKey key f gs

/-- Python's stable `sort(key=...)` (any stable sort produces the same
list). -/
def stableSortByKey (key : String → String) (fs : List String) : List String :=
  fs.foldr (stableInsertByKey key) []

/-- The local-model-path resolution block of `process_chat_request`: for a
local model, prefer the request's path, then the config's, else pick from the
model directory the first file with a supported extension after grouping by
the extension list and sorting by lower-cased extension; raise when none.
For a non-local model the state's path is left as configured. -/
def resolveModelPath (cfg : ModelConfig) (req : ChatRequest)
    (modelDirFiles : List String) (modelDir : String) :
    Except String (Option String) :=
  if cfg.model_type = "local" then
    match req.model_path with
    | some p => .ok (some p)
    | none =>
      match cfg.model_path with
      | some p => .ok (some p)
      | none =>
        let model_files := supported_extensions.flatMap
          (fun ext => modelDirFiles.filter (fun f => pyEndsWith f ext))
        match stableSortByKey (fun f => pyToLower (splitext f).2) model_files with
        | f :: _ => .ok (some (modelDir ++ "/" ++ f))
        | [] => .error "No local model files found. Please upload a model first."
  else .ok cfg.model_path

/-- `ChatService.process_chat_request`: prepare the state, resolve the model
path for local models, run the graph; only on success is the session history
written back and the response yielded; any exception is re-raised wrapped, and
`self.session_histories` is untouched on failure. -/
def process_chat_request (s : ChatServiceState) (cfg : ModelConfig)
    (modelDirFiles : List String) (modelDir : String)
    (splitText : String → List String) (llm : Prompt → Except String String)
    (req : ChatRequest) : Except String String × ChatServiceState :=
  let prep := prepare_chat_state s.session_histories s.vector_store cfg req
  let st0 := prep.1
  let vs0 := prep.2
  match resolveModelPath cfg req modelDirFiles modelDir with
  | .error e =>
    (.error ("Error processing chat request: " ++ e),
     { session_histories := s.session_histories, vector_store := vs0 })
  | .ok mp =>
    let st0 := { st0 with model_path := mp }
    match runConversationGraph vs0 cfg.embedding_type splitText llm st0 with
    | (.error e, vs1) =>
      (.error ("Error processing chat request: " ++ e),
       { session_histories := s.session_histories, vector_store := vs1 })
    | (.ok st3, vs1) =>
      (.ok st3.response,
       { session_histories := dictSet s.session_histories req.session_id st3.chat_history,
         vector_store := vs1 })

/-!
Chat route (`backend/app/api/routes/chat.py`).  The route body runs inside a
`try` whose `except Exception` clause catches everything — including the
`HTTPException(404)` the body itself raises — and re-raises it as a 500 whose
detail embeds `str(e)` (`f"{status_code}: {detail}"` for an HTTPException).
The `StreamingResponse` is modelled by its status plus the outcome of
consuming the stream.
-/

/-- A FastAPI `HTTPException`. -/
structure HTTPError where
  status_code : Nat
  detail : String
deriving DecidableEq

/-- Python `str(HTTPException(status, detail))`. -/
def strOfHTTPError (e : HTTPError) : String := toString e.status_code ++ ": " ++ e.detail

instance {ε α : Type} [DecidableEq ε] [DecidableEq α] : DecidableEq (Except ε α) := fun
  | .error a, .error b =>
    if h : a = b then isTrue (by rw [h]) else isFalse (by simp [h])
  | .error _, .ok _ => isFalse (by simp)
  | .ok _, .error _ => isFalse (by simp)
  | .ok a, .ok b => if h : a = b then isTrue (by rw [h]) else isFalse (by simp [h])

/-- The route's response: HTTP status, error detail (for non-2xx), and the
streamed body's outcome (for 200). -/
structure RouteResponse where
  status : Nat
  detail : String
  stream : Option (Except String String)
deriving DecidableEq

/-- The body of `chat_stream` inside the `try`: 404 when the session lookup
found nothing; else substitute the session's documents for an omitted
`document_ids` and return the streaming response. -/
def chat_stream_body (sessionLookup : Option SessionData) (req : ChatRequest)
    (processOutcome : ChatRequest → Except String String) :
    Except HTTPError RouteResponse :=
  match sessionLookup with
  | none => .error { status_code := 404, detail := "Session not found" }
  | some sd =>
    let req := if req.document_ids = [] ∧ sd.document_ids ≠ [] then
        { req with document_ids := sd.document_ids }
      else req
    .ok { status := 200, detail := "", stream := some (processOutcome req) }

/-- `chat_stream`: the body's own `HTTPException` is caught by the enclosing
`except Exception` and re-raised as a 500. -/
def chat_stream (sessionLookup : Option SessionData) (req : ChatRequest)
    (processOutcome : ChatRequest → Except String String) : RouteResponse :=
  match chat_stream_body sessionLookup req processOutcome with
  | .ok r => r
  | .error e =>
    { status := 500, detail := "Error processing chat request: " ++ strOfHTTPError e,
      stream := none }

/-- The full route including the `Depends(get_session)` dependency, which
creates a brand-new session for every request (the fresh uuid4 is supplied)
and hands its id to the handler. -/
def chat_stream_route (store : SessionStore) (now : Int) (newId : String)
    (req : ChatRequest) (processOutcome : ChatRequest → Except String String) :
    RouteResponse × SessionStore :=
  let created := create_session store now newId
  let looked := get_session created.2 now created.1
  (chat_stream looked.1 req processOutcome, looked.2)

/-!
PDF service (`backend/app/services/pdf_service.py`).  `PdfReader` and
`extract_text` are abstracted by each file's `pages`; the fresh uuid4 per
file is supplied alongside the file.  A file whose processing raises carries
the failure point: `failBeforeAppend` for an exception before
`document_ids.append(doc_id)` (unreadable PDF, extraction, or `add_texts` —
whose durable write only happens at the end of a successful add),
`failAtClose` for one raised by `file.file.close()` after the append. -/

/-- Where (if anywhere) processing of one uploaded file raises. -/
inductive PdfFailMode where
  | ok
  | failBeforeAppend (msg : String)
  | failAtClose (msg : String)
deriving DecidableEq

/-- One uploaded PDF as the service consumes it. -/
structure PdfFile where
  filename : String
  pages : List String
  failMode : PdfFailMode
deriving DecidableEq

/-- The loop body of `process_pdfs` over files paired with their fresh ids,
accumulating `document_ids` and `total_pages`. -/
def process_pdfs_go (configEmbeddingType : String) :
    VectorStoreState → List (PdfFile × String) → List String → Nat →
      Except String (List String × Nat) × VectorStoreState
  | vs, [], docIds, pages => (.ok (docIds, pages), vs)
  | vs, (f, i) :: rest, docIds, pages =>
    match f.failMode with
    | .failBeforeAppend msg =>
      let vs := if i ∈ docIds then delete_document vs i else vs
      (.error ("Error processing PDF " ++ f.filename ++ ": " ++ msg), vs)
    | .ok =>
      let chunks := f.pages.filter (fun t => pyStripString t ≠ "")
      let vs := if chunks ≠ [] then add_texts vs configEmbeddingType i chunks else vs
      process_pdfs_go configEmbeddingType vs rest (docIds ++ [i]) (pages + f.pages.length)
    | .failAtClose msg =>
      let chunks := f.pages.filter (fun t => pyStripString t ≠ "")
      let vs := if chunks ≠ [] then add_texts vs configEmbeddingType i chunks else vs
      let docIds := docIds ++ [i]
      let vs := if i ∈ docIds then delete_document vs i else vs
      (.error ("Error processing PDF " ++ f.filename ++ ": " ++ msg), vs)

/-- `process_pdfs`: process the files in order; the first failure raises out
of the whole call (after the per-file cleanup), so no document ids reach the
caller. -/
def process_pdfs (vs : VectorStoreState) (configEmbeddingType : String)
    (files : List (PdfFile × String)) :
    Except String (List String × Nat) × VectorStoreState :=
  process_pdfs_go configEmbeddingType vs files [] 0

/-!
Specification-side helpers used to state the claims about `update_config`:
the application of the present fields of a prefix of the parameter list
without any validation, the `model_type` step without its validation, and the
presence of an invalid field.
-/

/-- Store every parameter of `ps` present in `u`, without validation. -/
def applyPresent (u : ConfigUpdate) (c : ModelConfig) (ps : List NumParam) : ModelConfig :=
  ps.foldl (fun c p => match p.get u with | some v => p.set c v | none => c) c

/-- The `model_type` step of `update_config` without its validation: store the
type and auto-set `embedding_type` when the update carries none. -/
def afterModelTypeStep (c : ModelConfig) (u : ConfigUpdate) : ModelConfig :=
  match u.model_type with
  | some mt =>
    let c := { c with model_type := mt }
    if u.embedding_type.isNone then
      { c with embedding_type := if mt = "openai" then "openai" else "huggingface" }
    else c
  | none => c

/-- Whether the update carries an unknown `model_type`. -/
def invalidModelTypeField (u : ConfigUpdate) : Bool :=
  match u.model_type with
  | some mt => ¬(mt = "openai" ∨ mt = "local")
  | none => false

/-- Whether the update carries an out-of-range value for `p`. -/
def invalidNumField (p : NumParam) (u : ConfigUpdate) : Bool :=
  match p.get u with
  | some v => !numInRange p v
  | none => false

/-- Whether the update carries an unknown `embedding_type`. -/
def invalidEmbeddingTypeField (u : ConfigUpdate) : Bool :=
  match u.embedding_type with
  | some et => ¬(et = "huggingface" ∨ et = "openai")
  | none => false

/-- Whether the update carries any out-of-range or unknown value. -/
def hasInvalidField (u : ConfigUpdate) : Bool :=
  invalidModelTypeField u || numeric_params.any (fun p => invalidNumField p u) ||
    invalidEmbeddingTypeField u

/-!
Concrete sample values shared by the witnesses and counterexamples below.
-/

/-- A concrete valid configuration (integer-valued numeric fields, so that
the kernel can evaluate comparisons on them). -/
def sampleConfig : ModelConfig :=
  { model_type := "openai", temperature := 1, max_tokens := 512,
    top_p := 1, repeat_penalty := 2, n_ctx := 4096,
    gpu_layers := -1, embedding_type := "openai", model_path := none }

/-- A fresh vector store state. -/
def emptyVS : VectorStoreState :=
  { embedding_type := "huggingface", stores := [], disk := [] }

/-- A concrete session record with no documents or history. -/
def sampleSession (created lastAccessed : Int) : SessionData :=
  { created_at := created, last_accessed := lastAccessed, document_ids := [],
    chat_history := [], model_config := [] }

/-! The remaining definitions of the embedding are inserted above this point;
all theorems follow. -/


theorem splitDotSpace_ne_nil (s : Str) : splitDotSpace s ≠ [] := by
  induction s using splitDotSpace.induct with
  | case1 => simp [splitDotSpace]
  | case2 rest ih => simp [splitDotSpace]
  | case3 x rest h ih =>
    simp only [splitDotSpace]
    cases hs : splitDotSpace rest <;> simp [consHead]

theorem joinDotSpace_consHead (x : Char) (l : List Str) (h : l ≠ []) :
    joinDotSpace (consHead x l) = x :: joinDotSpace l := by
  match l with
  | [a] => rfl
  | a :: b :: t => rfl

theorem joinDotSpace_splitDotSpace (s : Str) : joinDotSpace (splitDotSpace s) = s := by
  induction s using splitDotSpace.induct with
  | case1 => rfl
  | case2 rest ih =>
    have h := splitDotSpace_ne_nil rest
    simp only [splitDotSpace]
    cases hs : splitDotSpace rest with
    | nil => exact absurd hs h
    | cons a b => rw [hs] at ih; cases b <;> simp_all [joinDotSpace]
  | case3 x rest h ih =>
    simp only [splitDotSpace, joinDotSpace_consHead x _ (splitDotSpace_ne_nil rest), ih]

theorem splitOnChar_ne_nil (c : Char) (s : Str) : splitOnChar c s ≠ [] :=
  List.splitOnP_ne_nil _ s

theorem splitOnChar_intercalate (c : Char) (ls : List Str)
    (hne : ls ≠ []) (hmem : ∀ l ∈ ls, c ∉ l) :
    splitOnChar c (List.intercalate [c] ls) = ls :=
  List.splitOn_intercalate _ c hmem hne

theorem mem_splitOnChar_not_mem (c : Char) (s : Str) :
    ∀ p ∈ splitOnChar c s, c ∉ p := by
  induction s with
  | nil =>
    intro p hp
    simp only [splitOnChar, List.splitOn, List.splitOnP_nil, List.mem_singleton] at hp
    simp [hp]
  | cons x rest ih =>
    intro p hp
    simp only [splitOnChar, List.splitOn, List.splitOnP_cons] at hp ih
    split at hp
    · rename_i hxc
      rcases List.mem_cons.mp hp with h | h
      · simp [h]
      · exact ih p h
    · rename_i hxc
      cases hs : List.splitOnP (· == c) rest with
      | nil => exact absurd hs (List.splitOnP_ne_nil _ rest)
      | cons a b =>
        rw [hs] at hp
        simp only [List.modifyHead] at hp
        rcases List.mem_cons.mp hp with h | h
        · subst h
          intro hmem
          rcases List.mem_cons.mp hmem with h | h
          · exact hxc (by simp [h.symm])
          · exact ih a (hs ▸ List.mem_cons_self a b) h
        · exact ih p (hs ▸ List.mem_cons_of_mem a h)

theorem mem_splitOnChar_infix (c : Char) (s : Str) :
    (∃ hd tl, splitOnChar c s = hd :: tl ∧ hd <+: s ∧ ∀ p ∈ tl, p <:+: s) := by
  induction s with
  | nil => exact ⟨[], [], by simp [splitOnChar, List.splitOn], by simp, by simp⟩
  | cons x rest ih =>
    obtain ⟨hd, tl, heq, hpre, hinf⟩ := ih
    by_cases hxc : x = c
    · refine ⟨[], splitOnChar c rest, ?_, by simp, ?_⟩
      · simp [splitOnChar, List.splitOn, List.splitOnP_cons, hxc]
      · intro p hp
        rw [heq] at hp
        rcases List.mem_cons.mp hp with h | h
        · exact h ▸ (hpre.isInfix.trans (List.infix_cons (List.infix_refl rest)))
        · exact (hinf p h).trans (List.infix_cons (List.infix_refl rest))
    · refine ⟨x :: hd, tl, ?_, List.cons_prefix_cons.mpr ⟨rfl, hpre⟩, ?_⟩
      · simp only [splitOnChar, List.splitOn, List.splitOnP_cons] at heq ⊢
        rw [if_neg (by simpa using hxc), heq]
        rfl
      · intro p hp
        exact (hinf p hp).trans (List.infix_cons (List.infix_refl rest))

theorem mem_splitOnChar_isInfix (c : Char) (s : Str) :
    ∀ p ∈ splitOnChar c s, p <:+: s := by
  obtain ⟨hd, tl, heq, hpre, hinf⟩ := mem_splitOnChar_infix c s
  intro p hp
  rw [heq] at hp
  rcases List.mem_cons.mp hp with h | h
  · exact h ▸ hpre.isInfix
  · exact hinf p h


theorem hasPair_cons_false_iff (a b x : Char) (s : Str) :
    hasPair a b (x :: s) = false ↔ ¬(x = a ∧ s.head? = some b) ∧ hasPair a b s = false := by
  cases s with
  | nil => simp [hasPair]
  | cons y rest =>
    simp only [hasPair, List.head?, Bool.or_eq_false_iff, Bool.and_eq_false_iff]
    constructor
    · rintro ⟨h1, h2⟩
      refine ⟨?_, h2⟩
      rintro ⟨hx, hy⟩
      rcases h1 with h | h <;> simp_all
    · rintro ⟨h1, h2⟩
      refine ⟨?_, h2⟩
      by_cases hx : x = a
      · right; simp only [beq_eq_false_iff_ne, ne_eq]
        intro hy; exact h1 ⟨hx, by simp [hy]⟩
      · left; simp [hx]

theorem hasPair_append_false_iff (a b : Char) (u v : Str) :
    hasPair a b (u ++ v) = false ↔
      hasPair a b u = false ∧ hasPair a b v = false ∧
        ¬(u.getLast? = some a ∧ v.head? = some b) := by
  induction u with
  | nil => simp [hasPair]
  | cons x u' ih =>
    rw [List.cons_append, hasPair_cons_false_iff, ih, hasPair_cons_false_iff]
    cases u' with
    | nil => simp [hasPair]; tauto
    | cons z w =>
      simp only [List.cons_append, List.head?, List.getLast?_cons_cons]
      tauto

theorem hasPair_false_of_infix (a b : Char) (u s : Str) (hinf : u <:+: s)
    (h : hasPair a b s = false) : hasPair a b u = false := by
  obtain ⟨l, r, rfl⟩ := hinf
  rw [hasPair_append_false_iff] at h
  have h1 := h.1
  rw [hasPair_append_false_iff] at h1
  exact h1.2.1

theorem replaceEscapedNewlines_eq_self (s : Str) (h : hasPair '\\' 'n' s = false) :
    replaceEscapedNewlines s = s := by
  induction s using replaceEscapedNewlines.induct with
  | case1 rest ih => simp [hasPair] at h
  | case2 x rest hx ih =>
    rw [hasPair_cons_false_iff] at h
    simp only [replaceEscapedNewlines]
    rw [ih h.2]
  | case3 => rfl


theorem head?_replaceEscapedNewlines_eq_n (s : Str)
    (h : (replaceEscapedNewlines s).head? = some 'n') : s.head? = some 'n' := by
  induction s using replaceEscapedNewlines.induct with
  | case1 rest ih =>
    simp only [replaceEscapedNewlines, List.head?, Option.some.injEq] at h
    exact absurd h (by decide)
  | case2 x rest hx ih =>
    simpa only [replaceEscapedNewlines, List.head?] using h
  | case3 => simp [replaceEscapedNewlines] at h

theorem replaceEscapedNewlines_no_pair (s : Str) :
    hasPair '\\' 'n' (replaceEscapedNewlines s) = false := by
  induction s using replaceEscapedNewlines.induct with
  | case1 rest ih =>
    simp only [replaceEscapedNewlines]
    rw [hasPair_cons_false_iff]
    exact ⟨by simp, ih⟩
  | case2 x rest hx ih =>
    simp only [replaceEscapedNewlines]
    rw [hasPair_cons_false_iff]
    refine ⟨?_, ih⟩
    rintro ⟨rfl, hn⟩
    have hh := head?_replaceEscapedNewlines_eq_n rest hn
    cases rest with
    | nil => simp at hh
    | cons y r =>
      simp only [List.head?, Option.some.injEq] at hh
      exact hx r rfl (by rw [hh])
  | case3 => simp [replaceEscapedNewlines, hasPair]

theorem head?_collapseDoubleNewlines (s : Str) :
    (collapseDoubleNewlines s).head? = s.head? := by
  induction s using collapseDoubleNewlines.induct with
  | case1 rest ih => simp [collapseDoubleNewlines]
  | case2 x rest hx ih => simp [collapseDoubleNewlines]
  | case3 => rfl

theorem collapseDoubleNewlines_no_pair (s : Str) (h : hasPair '\\' 'n' s = false) :
    hasPair '\\' 'n' (collapseDoubleNewlines s) = false := by
  induction s using collapseDoubleNewlines.induct with
  | case1 rest ih =>
    rw [hasPair_cons_false_iff] at h
    have h2 := (hasPair_cons_false_iff _ _ _ _).mp h.2
    simp only [collapseDoubleNewlines]
    rw [hasPair_cons_false_iff]
    exact ⟨by simp, ih h2.2⟩
  | case2 x rest hx ih =>
    rw [hasPair_cons_false_iff] at h
    simp only [collapseDoubleNewlines]
    rw [hasPair_cons_false_iff]
    refine ⟨?_, ih h.2⟩
    rintro ⟨rfl, hn⟩
    rw [head?_collapseDoubleNewlines] at hn
    exact h.1 ⟨rfl, hn⟩
  | case3 => simp [collapseDoubleNewlines, hasPair]

theorem rstripNewlines_prefix_self (s : Str) : rstripNewlines s <+: s :=
  List.rdropWhile_prefix _ _

theorem convert_newlines_no_pair (t : Str) :
    hasPair '\\' 'n' (convert_newlines t) = false := by
  have h1 := replaceEscapedNewlines_no_pair t
  have h2 := collapseDoubleNewlines_no_pair _ h1
  exact hasPair_false_of_infix _ _ _ _ (rstripNewlines_prefix_self _).isInfix h2


theorem collapseDoubleNewlines_cons_of_ne (x : Char) (s : Str) (hx : x ≠ '\n') :
    collapseDoubleNewlines (x :: s) = x :: collapseDoubleNewlines s :=
  collapseDoubleNewlines.eq_2 x s (fun _ hxx _ => absurd hxx hx)

theorem collapseDoubleNewlines_append (u v : Str) (h : '\n' ∉ u) :
    collapseDoubleNewlines (u ++ v) = u ++ collapseDoubleNewlines v := by
  induction u with
  | nil => rfl
  | cons x u' ih =>
    have hx : x ≠ '\n' := fun hc => h (hc ▸ List.mem_cons_self x u')
    have h' : '\n' ∉ u' := fun hc => h (List.mem_cons_of_mem x hc)
    rw [List.cons_append, collapseDoubleNewlines_cons_of_ne x _ hx, ih h', List.cons_append]

theorem collapseDoubleNewlines_eq_self (s : Str) (h : '\n' ∉ s) :
    collapseDoubleNewlines s = s := by
  have := collapseDoubleNewlines_append s [] h
  simpa [collapseDoubleNewlines] using this

theorem rstripNewlines_eq_self (s : Str) (h : ∀ hl : s ≠ [], s.getLast hl ≠ '\n') :
    rstripNewlines s = s := by
  rw [rstripNewlines, List.rdropWhile_eq_self_iff]
  intro hl
  simpa using h hl


theorem pyLStrip_head_not (s : Str) (c : Char) (h : (pyLStrip s).head? = some c) :
    pyIsSpace c = false := by
  induction s with
  | nil => simp [pyLStrip] at h
  | cons x r ih =>
    rw [pyLStrip, List.dropWhile_cons] at h
    split at h
    · exact ih (by rwa [pyLStrip])
    · rename_i hx
      simp only [List.head?, Option.some.injEq] at h
      subst h
      simpa using hx

theorem pyStrip_eq_empty_or (s : Str) :
    pyStrip s = [] ∨
      ((pyStrip s).head? = (pyLStrip s).head? ∧
        ∀ hl : pyStrip s ≠ [], ¬pyIsSpace ((pyStrip s).getLast hl)) := by
  by_cases hn : pyStrip s = []
  · exact Or.inl hn
  · refine Or.inr ⟨?_, fun hl => List.rdropWhile_last_not _ _ hl⟩
    have hpre : pyStrip s <+: pyLStrip s := List.rdropWhile_prefix _ _
    rw [List.head?_eq_head hn, hpre.head hn, ← List.head?_eq_head]

theorem pyStrip_idempotent (s : Str) : pyStrip (pyStrip s) = pyStrip s := by
  rcases pyStrip_eq_empty_or s with h | ⟨hhead, hlast⟩
  · rw [h]; rfl
  · by_cases hn : pyStrip s = []
    · rw [hn]; rfl
    · have hls : pyLStrip (pyStrip s) = pyStrip s := by
        cases ht : pyStrip s with
        | nil => exact absurd ht hn
        | cons x r =>
          rw [pyLStrip, List.dropWhile_cons, if_neg]
          rw [ht] at hhead
          have := pyLStrip_head_not s x (by rw [← hhead]; rfl)
          simp [this]
      rw [pyStrip, hls, pyRStrip, List.rdropWhile_eq_self_iff]
      intro hl
      exact hlast hl

theorem pyStrip_isInfix (s : Str) : pyStrip s <:+: s :=
  ((List.rdropWhile_prefix _ _).isInfix).trans (List.dropWhile_suffix _).isInfix

theorem pyStrip_head_not (s : Str) (c : Char) (h : (pyStrip s).head? = some c) :
    pyIsSpace c = false := by
  rcases pyStrip_eq_empty_or s with he | ⟨hhead, _⟩
  · rw [he] at h; simp at h
  · exact pyLStrip_head_not s c (hhead ▸ h)


theorem intercalate_cons₂ (sep a : Str) (b : Str) (t : List Str) :
    List.intercalate sep (a :: b :: t) = a ++ sep ++ List.intercalate sep (b :: t) := by
  simp [List.intercalate, List.intersperse_cons_cons]

theorem intercalate_singleton_list (sep a : Str) : List.intercalate sep [a] = a := by
  simp [List.intercalate]

theorem intercalate_nn_no_pair (l : List Str)
    (h : ∀ x ∈ l, hasPair '\\' 'n' x = false ∧ '\n' ∉ x) :
    hasPair '\\' 'n' (List.intercalate ['\n', '\n'] l) = false := by
  induction l with
  | nil => simp [List.intercalate, hasPair]
  | cons a t ih =>
    cases t with
    | nil =>
      rw [intercalate_singleton_list]
      exact (h a (List.mem_cons_self a _)).1
    | cons b t' =>
      rw [intercalate_cons₂, List.append_assoc, hasPair_append_false_iff]
      obtain ⟨ha, hn⟩ := h a (List.mem_cons_self a _)
      refine ⟨ha, ?_, ?_⟩
      · rw [List.cons_append, List.cons_append, List.nil_append,
          hasPair_cons_false_iff, hasPair_cons_false_iff]
        refine ⟨by simp, by simp, ?_⟩
        exact ih (fun x hx => h x (List.mem_cons_of_mem a hx))
      · rintro ⟨_, hh⟩
        simp at hh

theorem collapse_intercalate (l : List Str) (hne : l ≠ [])
    (h : ∀ x ∈ l, '\n' ∉ x) :
    collapseDoubleNewlines (List.intercalate ['\n', '\n'] l) =
      List.intercalate ['\n'] l := by
  induction l with
  | nil => exact absurd rfl hne
  | cons a t ih =>
    cases t with
    | nil =>
      rw [intercalate_singleton_list, intercalate_singleton_list]
      exact collapseDoubleNewlines_eq_self a (h a (List.mem_cons_self a _))
    | cons b t' =>
      rw [intercalate_cons₂, List.append_assoc,
        collapseDoubleNewlines_append _ _ (h a (List.mem_cons_self a _))]
      rw [show (['\n', '\n'] : Str) ++ List.intercalate ['\n', '\n'] (b :: t') =
        '\n' :: '\n' :: List.intercalate ['\n', '\n'] (b :: t') from rfl]
      rw [collapseDoubleNewlines.eq_1,
        ih (List.cons_ne_nil b t') (fun x hx => h x (List.mem_cons_of_mem a hx))]
      rw [intercalate_cons₂, List.append_assoc]
      rfl

theorem intercalate_newline_ne_nil (l : List Str) (a : Str) (t : List Str)
    (hl : l = a :: t) (ha : a ≠ []) : List.intercalate ['\n'] l ≠ [] := by
  subst hl
  cases t with
  | nil => rwa [intercalate_singleton_list]
  | cons b t' =>
    rw [intercalate_cons₂, List.append_assoc]
    exact List.append_ne_nil_of_left_ne_nil ha _

theorem getLast?_intercalate_newline (l : List Str)
    (h : ∀ x ∈ l, x ≠ [] ∧ '\n' ∉ x) :
    ∀ c, (List.intercalate ['\n'] l).getLast? = some c → c ≠ '\n' := by
  induction l with
  | nil => simp [List.intercalate]
  | cons a t ih =>
    cases t with
    | nil =>
      rw [intercalate_singleton_list]
      intro c hc hcn
      have hmem : c ∈ a := by
        obtain ⟨hne', h2⟩ := List.mem_getLast?_eq_getLast hc
        rw [h2]
        exact List.getLast_mem hne'
      exact (h a (List.mem_cons_self a _)).2 (hcn ▸ hmem)
    | cons b t' =>
      intro c hc
      rw [intercalate_cons₂, List.append_assoc] at hc
      have hbt : List.intercalate ['\n'] (b :: t') ≠ [] :=
        intercalate_newline_ne_nil _ b t' rfl (h b (List.mem_cons_of_mem a (List.mem_cons_self b _))).1
      rw [List.getLast?_append_of_ne_nil _ (by simp)] at hc
      rw [show (['\n'] : Str) ++ List.intercalate ['\n'] (b :: t') =
        '\n' :: List.intercalate ['\n'] (b :: t') from rfl] at hc
      cases hbt' : List.intercalate ['\n'] (b :: t') with
      | nil => exact absurd hbt' hbt
      | cons z w =>
        rw [hbt'] at hc
        rw [show ('\n' :: z :: w).getLast? = (z :: w).getLast? from List.getLast?_cons_cons] at hc
        exact ih (fun x hx => h x (List.mem_cons_of_mem a hx)) c (hbt' ▸ hc)


theorem dedupeBySeen_subset (seen : List Str) (l : List Str) :
    ∀ x ∈ dedupeBySeen seen l, x ∈ l := by
  induction l generalizing seen with
  | nil => simp [dedupeBySeen]
  | cons s rest ih =>
    intro x hx
    rw [dedupeBySeen] at hx
    split at hx
    · exact List.mem_cons_of_mem s (ih seen x hx)
    · rcases List.mem_cons.mp hx with h | h
      · exact h ▸ List.mem_cons_self s rest
      · exact List.mem_cons_of_mem s (ih _ x h)

theorem dedupeBySeen_props (seen : List Str) (l : List Str) :
    ((dedupeBySeen seen l).map normalizeWs).Nodup ∧
      ∀ x ∈ dedupeBySeen seen l, normalizeWs x ∉ seen := by
  induction l generalizing seen with
  | nil => simp [dedupeBySeen]
  | cons s rest ih =>
    rw [dedupeBySeen]
    split
    · exact (ih seen)
    · rename_i hns
      obtain ⟨ihn, ihs⟩ := ih (normalizeWs s :: seen)
      constructor
      · rw [List.map_cons, List.nodup_cons]
        refine ⟨?_, ihn⟩
        intro hmem
        obtain ⟨x, hx, hxe⟩ := List.mem_map.mp hmem
        exact ihs x hx (hxe ▸ List.mem_cons_self _ _)
      · intro x hx
        rcases List.mem_cons.mp hx with h | h
        · exact h ▸ hns
        · intro hseen
          exact ihs x h (List.mem_cons_of_mem _ hseen)

theorem dedupeBySeen_eq_self (seen : List Str) (l : List Str)
    (hnod : (l.map normalizeWs).Nodup) (hdis : ∀ x ∈ l, normalizeWs x ∉ seen) :
    dedupeBySeen seen l = l := by
  induction l generalizing seen with
  | nil => rfl
  | cons s rest ih =>
    rw [dedupeBySeen, if_neg (hdis s (List.mem_cons_self s rest))]
    congr 1
    rw [List.map_cons, List.nodup_cons] at hnod
    refine ih _ hnod.2 ?_
    intro x hx
    rw [List.mem_cons]
    push_neg
    constructor
    · intro he
      exact hnod.1 (he ▸ List.mem_map_of_mem normalizeWs hx)
    · exact hdis x (List.mem_cons_of_mem s hx)

theorem dedupeBySeen_idem (l : List Str) :
    dedupeBySeen [] (dedupeBySeen [] l) = dedupeBySeen [] l :=
  dedupeBySeen_eq_self [] _ (dedupeBySeen_props [] l).1 (by simp)

theorem sentencesOf_mem_props (u : Str) :
    ∀ x ∈ sentencesOf u,
      x ≠ [] ∧ pyStrip x = x ∧ '\n' ∉ x ∧
        (hasPair '\\' 'n' u = false → hasPair '\\' 'n' x = false) := by
  intro x hx
  rw [sentencesOf, List.mem_filter] at hx
  obtain ⟨hmem, hne⟩ := hx
  obtain ⟨p, hp, hpe⟩ := List.mem_map.mp hmem
  rw [joinDotSpace_splitDotSpace] at hpe
  have hpinf : p <:+: u := mem_splitOnChar_isInfix '\n' u p hp
  have hxinf : x <:+: p := hpe ▸ pyStrip_isInfix p
  refine ⟨by simpa using hne, hpe ▸ pyStrip_idempotent p, ?_, ?_⟩
  · intro hmem'
    exact mem_splitOnChar_not_mem '\n' u p hp (hxinf.subset hmem')
  · intro hu
    exact hasPair_false_of_infix _ _ _ _ (hxinf.trans hpinf) hu

theorem sentencesOf_intercalate_newline (l : List Str)
    (h : ∀ x ∈ l, x ≠ [] ∧ pyStrip x = x ∧ '\n' ∉ x) (hne : l ≠ []) :
    sentencesOf (List.intercalate ['\n'] l) = l := by
  rw [sentencesOf, splitOnChar_intercalate '\n' l hne (fun x hx => (h x hx).2.2)]
  have hmap : ∀ a ∈ l, pyStrip (joinDotSpace (splitDotSpace a)) = id a := fun a ha => by
    rw [joinDotSpace_splitDotSpace]
    exact (h a ha).2.1
  rw [List.map_congr_left hmap, List.map_id]
  rw [List.filter_eq_self.mpr]
  intro a ha
  simpa using (h a ha).1

theorem remove_convert_idem (t : Str) :
    remove_repeating_sentences (convert_newlines
      (remove_repeating_sentences (convert_newlines t))) =
      remove_repeating_sentences (convert_newlines t) := by
  have hu : hasPair '\\' 'n' (convert_newlines t) = false := convert_newlines_no_pair t
  cases hL : dedupeBySeen [] (sentencesOf (convert_newlines t)) with
  | nil =>
    have hy : remove_repeating_sentences (convert_newlines t) = [] := by
      rw [remove_repeating_sentences, hL]
      rfl
    rw [hy]
    decide
  | cons s rest =>
    have hprops : ∀ x ∈ s :: rest,
        x ≠ [] ∧ pyStrip x = x ∧ '\n' ∉ x ∧ hasPair '\\' 'n' x = false := by
      intro x hx
      have hx' := dedupeBySeen_subset [] _ x (hL ▸ hx)
      obtain ⟨h1, h2, h3, h4⟩ := sentencesOf_mem_props _ x hx'
      exact ⟨h1, h2, h3, h4 hu⟩
    have hy : remove_repeating_sentences (convert_newlines t)
        = List.intercalate ['\n', '\n'] (s :: rest) := by
      rw [remove_repeating_sentences, hL]
    have hnopair : hasPair '\\' 'n' (List.intercalate ['\n', '\n'] (s :: rest)) = false :=
      intercalate_nn_no_pair _ (fun x hx => ⟨(hprops x hx).2.2.2, (hprops x hx).2.2.1⟩)
    have hc : convert_newlines (List.intercalate ['\n', '\n'] (s :: rest))
        = List.intercalate ['\n'] (s :: rest) := by
      rw [convert_newlines, replaceEscapedNewlines_eq_self _ hnopair]
      rw [collapse_intercalate _ (List.cons_ne_nil s rest)
        (fun x hx => (hprops x hx).2.2.1)]
      exact rstripNewlines_eq_self _ (fun hl =>
        getLast?_intercalate_newline (s :: rest)
          (fun x hx => ⟨(hprops x hx).1, (hprops x hx).2.2.1⟩) _
          (List.getLast?_eq_getLast_of_ne_nil hl))
    have hds : dedupeBySeen [] (s :: rest) = s :: rest := hL ▸ dedupeBySeen_idem _
    rw [hy, hc, remove_repeating_sentences,
      sentencesOf_intercalate_newline (s :: rest)
        (fun x hx => ⟨(hprops x hx).1, (hprops x hx).2.1, (hprops x hx).2.2.1⟩)
        (List.cons_ne_nil s rest),
      hds]


/-- C3: the claim `postprocess(postprocess(x)) == postprocess(x)` for all `x`
is false: on `"abc end\nabc"` the artifact-stripping pass deletes `end` and
one newline, leaving `"abc \nabc"`, whose second pass deduplicates the two
now-identical sentences down to `"abc"`. -/
theorem C3_postprocess_not_idempotent_counterexample :
    postprocess_text (postprocess_text ("abc end\nabc").toList) ≠
      postprocess_text ("abc end\nabc").toList := by decide

/-- C3 (amended): `postprocess_text` is idempotent on every input on which
the artifact-stripping pass leaves the normalised, deduplicated text
unchanged; the composition of newline normalisation and repeated-sentence
removal is idempotent unconditionally (`remove_convert_idem`). -/
theorem C3_postprocess_idempotent_of_filter_identity (x : Str)
    (h : filter_model_metadata (remove_repeating_sentences (convert_newlines x)) =
      remove_repeating_sentences (convert_newlines x)) :
    postprocess_text (postprocess_text x) = postprocess_text x := by
  have hp : postprocess_text x = remove_repeating_sentences (convert_newlines x) := by
    rw [postprocess_text, h]
  rw [hp, postprocess_text, remove_convert_idem]
  exact h

/-- Witness for C3's amended theorem at the concrete input `"a\nb. a"`
(with a literal backslash-n). -/
theorem C3_postprocess_idempotent_witness :
    (filter_model_metadata (remove_repeating_sentences (convert_newlines ("a\\nb. a").toList)) =
      remove_repeating_sentences (convert_newlines ("a\\nb. a").toList)) ∧
    postprocess_text (postprocess_text ("a\\nb. a").toList) =
      postprocess_text ("a\\nb. a").toList :=
  ⟨by decide, C3_postprocess_idempotent_of_filter_identity _ (by decide)⟩


theorem dictGet_nil {α : Type} (k : String) : dictGet ([] : List (String × α)) k = none := rfl

theorem dictGet_dictSet_self {α : Type} (d : List (String × α)) (k : String) (v : α) :
    dictGet (dictSet d k v) k = some v := by
  simp [dictGet, dictSet]

theorem find?_filter_ne {α : Type} (d : List (String × α)) (k k' : String) (h : k' ≠ k) :
    (d.filter (fun kv => kv.1 ≠ k)).find? (fun kv => kv.1 == k') =
      d.find? (fun kv => kv.1 == k') := by
  induction d with
  | nil => rfl
  | cons kv rest ih =>
    by_cases hk : kv.1 = k
    · have hne : (kv.1 == k') = false := by
        simp only [beq_eq_false_iff_ne, ne_eq]
        intro he
        exact h (by rw [← he, hk])
      simp only [List.filter_cons, hk]
      rw [if_neg (by simp)]
      rw [ih, List.find?_cons_of_neg _ (by simp [hne])]
    · by_cases hk' : kv.1 = k'
      · simp only [List.filter_cons]
        rw [if_pos (by simp [hk])]
        rw [List.find?_cons_of_pos _ (by simp [hk']), List.find?_cons_of_pos _ (by simp [hk'])]
      · simp only [List.filter_cons]
        rw [if_pos (by simp [hk])]
        rw [List.find?_cons_of_neg _ (by simp [hk']), List.find?_cons_of_neg _ (by simp [hk']),
          ih]

theorem dictGet_dictSet_ne {α : Type} (d : List (String × α)) (k k' : String) (v : α)
    (h : k' ≠ k) : dictGet (dictSet d k v) k' = dictGet d k' := by
  rw [dictGet, dictSet, List.find?_cons_of_neg _ (by simpa using fun he : k = k' => h he.symm)]
  rw [show (List.find? (fun kv => kv.1 == k') (List.filter (fun kv => decide (kv.1 ≠ k)) d)) =
    d.find? (fun kv => kv.1 == k') from find?_filter_ne d k k' h]
  rfl

theorem dictGet_dictErase_ne {α : Type} (d : List (String × α)) (k k' : String)
    (h : k' ≠ k) : dictGet (dictErase d k) k' = dictGet d k' := by
  rw [dictGet, dictErase]
  rw [show (List.find? (fun kv => kv.1 == k') (List.filter (fun kv => decide (kv.1 ≠ k)) d)) =
    d.find? (fun kv => kv.1 == k') from find?_filter_ne d k k' h]
  rfl

theorem dictGet_isSome_dictSet {α : Type} (d : List (String × α)) (k k' : String) (v : α)
    (h : (dictGet d k').isSome) : (dictGet (dictSet d k v) k').isSome := by
  by_cases he : k' = k
  · subst he
    rw [dictGet_dictSet_self]
    rfl
  · rwa [dictGet_dictSet_ne d k k' v he]

/-- C8: a local model upload whose filename extension (lower-cased, per
`os.path.splitext`) is unsupported is rejected with the unsupported-format
error before anything is written; an upload with a supported extension writes
the file at `os.path.join(model_dir, filename)` and returns that path. -/
theorem C8_upload_local_model_validation :
    (∀ (fs : ModelFS) (modelDir modelFile filename : String),
      pyToLower (splitext filename).2 ∉ supported_extensions →
      upload_local_model fs modelDir modelFile filename =
        .error ("Unsupported model file extension: " ++ pyToLower (splitext filename).2 ++
          ". Supported extensions are: " ++ String.intercalate ", " supported_extensions)) ∧
    (∀ (fs : ModelFS) (modelDir modelFile filename : String),
      pyToLower (splitext filename).2 ∈ supported_extensions →
      upload_local_model fs modelDir modelFile filename =
        .ok ({ files := dictSet fs.files (modelDir ++ "/" ++ filename) modelFile },
          modelDir ++ "/" ++ filename)) := by
  constructor
  · intro fs modelDir modelFile filename h
    rw [upload_local_model, validate_model_file]
    rw [if_neg h]
  · intro fs modelDir modelFile filename h
    rw [upload_local_model, validate_model_file]
    rw [if_pos h]

/-- Witness for C8 at the concrete filenames `model.xyz` and `model.GGUF`. -/
theorem C8_upload_local_model_witness :
    (pyToLower (splitext "model.xyz").2 ∉ supported_extensions ∧
      upload_local_model { files := [] } "./models" "bytes" "model.xyz" =
        .error ("Unsupported model file extension: .xyz. Supported extensions are: " ++
          ".gguf, .safetensors, .bin, .pt, .pth")) ∧
    (pyToLower (splitext "model.GGUF").2 ∈ supported_extensions ∧
      upload_local_model { files := [] } "./models" "bytes" "model.GGUF" =
        .ok ({ files := [("./models/model.GGUF", "bytes")] }, "./models/model.GGUF")) := by
  refine ⟨⟨by decide, ?_⟩, ⟨by decide, ?_⟩⟩
  · rw [C8_upload_local_model_validation.1 { files := [] } "./models" "bytes" "model.xyz"
      (by decide)]
    decide
  · rw [C8_upload_local_model_validation.2 { files := [] } "./models" "bytes" "model.GGUF"
      (by decide)]
    decide

/-- C6: the claim that a query against a freshly created, zero-user-chunk
index returns an empty result is false — `get_store` seeds every new index
with the dummy text `"Initial document"`, which the query returns. -/
theorem C6_fresh_index_counterexample :
    (get_document emptyVS "huggingface" "doc1").1 ≠ none ∧
    (get_document emptyVS "huggingface" "doc1").1 = some "Initial document" := by
  decide

/-- C6 (amended): a query against a freshly created index (no in-memory or
durable state for the document) returns the dummy initialization text
`"Initial document"` — one seeded chunk, not an empty result — and does not
raise (the model is a total function). -/
theorem C6_fresh_index_returns_dummy (vs : VectorStoreState)
    (cfgType docId : String)
    (hmem : dictGet vs.stores docId = none) (hdisk : dictGet vs.disk docId = none) :
    (get_document vs cfgType docId).1 = some "Initial document" := by
  simp only [get_document, get_store, update_embeddings]
  split_ifs with h1 h2 <;>
    simp [hmem, hdisk, dictGet_nil, faissFromTexts, faissSimilaritySearch]

/-- Witness for C6's amended theorem on a store holding an unrelated
document. -/
theorem C6_fresh_index_returns_dummy_witness :
    (dictGet (add_document emptyVS "huggingface" "other" "text").stores "doc1" = none ∧
      dictGet (add_document emptyVS "huggingface" "other" "text").disk "doc1" = none) ∧
    (get_document (add_document emptyVS "huggingface" "other" "text")
      "huggingface" "doc1").1 = some "Initial document" :=
  ⟨by decide, C6_fresh_index_returns_dummy _ _ _ (by decide) (by decide)⟩

/-- C7: a chat request with an empty document set retrieves no chunks, and
`generate_response` on a state with no retrieved chunks substitutes the fixed
placeholder context and proceeds to generation — succeeding whenever the
model call succeeds, so a request never fails purely because retrieval was
empty. -/
theorem C7_empty_retrieval_placeholder :
    (∀ (vs : VectorStoreState) (cfgType : String) (splitText : String → List String)
      (st : ChatState), st.document_ids = [] →
      (retrieve_documents vs cfgType splitText st).1 = []) ∧
    (∀ (llm : Prompt → Except String String) (st : ChatState) (ans : String),
      st.retrieved_docs = [] →
      llm { context := emptyContextPlaceholder, history := st.chat_history,
            question := st.question } = .ok ans →
      generate_response llm st =
        .ok { st with chat_history := st.chat_history ++ [ChatMsg.assistant (postprocessString ans)],
                      response := postprocessString ans }) := by
  constructor
  · intro vs cfgType splitText st h
    rw [retrieve_documents, h]
    simp
  · intro llm st ans h hllm
    rw [generate_response, h]
    simp only [List.map_nil]
    rw [show String.intercalate "\n\n" [] = "" from rfl, if_pos rfl, hllm]


/-- Witness for C7 at a concrete empty-retrieval state. -/
theorem C7_empty_retrieval_placeholder_witness :
    ((retrieve_documents emptyVS "huggingface" (fun t => [t])
        { question := "q", chat_history := [], document_ids := [], retrieved_docs := [],
          response := "", model_type := "openai", model_path := none,
          embedding_type := "huggingface" }).1 = [] ∧
      generate_response (fun _ => .ok "An answer")
        { question := "q", chat_history := [], document_ids := [], retrieved_docs := [],
          response := "", model_type := "openai", model_path := none,
          embedding_type := "huggingface" } =
        .ok { question := "q", chat_history := [ChatMsg.assistant "An answer"],
              document_ids := [], retrieved_docs := [], response := "An answer",
              model_type := "openai", model_path := none,
              embedding_type := "huggingface" }) := by
  constructor
  · exact C7_empty_retrieval_placeholder.1 emptyVS "huggingface" (fun t => [t]) _ rfl
  · rw [C7_empty_retrieval_placeholder.2 (fun _ => .ok "An answer") _ "An answer" rfl rfl]
    decide

/-- C5: for a stored session, `get_session` compares the elapsed time against
`last_accessed` only: when more than 24 hours have passed it returns
not-found and deletes the record; otherwise it returns the record with
`last_accessed` refreshed to `now` and persists the refresh; the outcome is
unchanged under any rewrite of `created_at`. -/
theorem C5_get_session_expiry (store : SessionStore) (now : Int) (sid : String)
    (sd : SessionData) (hmem : dictGet store sid = some sd) :
    (now - sd.last_accessed > session_timeout →
      get_session store now sid = (none, dictErase store sid)) ∧
    (¬(now - sd.last_accessed > session_timeout) →
      get_session store now sid =
        (some { sd with last_accessed := now },
          dictSet store sid { sd with last_accessed := now })) ∧
    (∀ c : Int,
      ((get_session (dictSet store sid { sd with created_at := c }) now sid).1).isSome =
        ((get_session store now sid).1).isSome) := by
  refine ⟨?_, ?_, ?_⟩
  · intro hexp
    simp only [get_session, hmem, if_pos hexp, delete_session]
    rw [if_pos (show (some sd).isSome = true from rfl)]
  · intro hexp
    simp only [get_session, hmem, if_neg hexp]
  · intro c
    simp only [get_session, hmem, dictGet_dictSet_self]
    by_cases hexp : now - sd.last_accessed > session_timeout
    · rw [if_pos hexp, if_pos (by simpa using hexp)]
    · rw [if_neg hexp, if_neg (by simpa using hexp)]
      rfl

/-- Witness for C5 at concrete timestamps: a session last accessed 25 hours
ago is expired and deleted; one last accessed 1 hour ago is refreshed. -/
theorem C5_get_session_expiry_witness :
    get_session [("s", sampleSession 0 0)] (25 * 60 * 60) "s" = (none, []) ∧
    get_session [("s", sampleSession 0 0)] (60 * 60) "s" =
      (some (sampleSession 0 (60 * 60)), [("s", sampleSession 0 (60 * 60))]) := by
  constructor
  · rw [(C5_get_session_expiry [("s", sampleSession 0 0)] (25 * 60 * 60) "s"
      (sampleSession 0 0) (by decide)).1 (by decide)]
    decide
  · rw [(C5_get_session_expiry [("s", sampleSession 0 0)] (60 * 60) "s"
      (sampleSession 0 0) (by decide)).2.1 (by decide)]
    decide

/-- C9: the claim that an unknown or expired session yields a 404-equivalent
response is contradicted by the code: the `HTTPException(404)` raised inside
the route's `try` block is caught by its own `except Exception` clause and
re-raised as a 500 whose detail wraps the 404 (the repository's unit test
`test_chat_stream_session_not_found` expects 404 and fails against this
code). -/
theorem C9_session_not_found_gives_500 :
    chat_stream none { question := "q", session_id := "s", document_ids := [] }
        (fun _ => .ok "a") =
      { status := 500, detail := "Error processing chat request: 404: Session not found",
        stream := none } ∧
    (chat_stream none { question := "q", session_id := "s", document_ids := [] }
        (fun _ => .ok "a")).status ≠ 404 := by
  decide


/-- C1: the claim that after an embedding-type switch a query never returns a
vector computed under the previous provider is false.  Concretely: index a
document under `"huggingface"`, switch to `"openai"` — the in-memory stores
are cleared, but `get_store` then reloads the persisted index from disk, and
the store it returns (which `get_document` queries) still holds chunks whose
vectors were computed by the `"huggingface"` provider. -/
theorem C1_stale_vectors_counterexample :
    (update_embeddings (add_document emptyVS "huggingface" "d" "hello world")
        "openai").stores = [] ∧
    ((get_store (update_embeddings (add_document emptyVS "huggingface" "d" "hello world")
        "openai") "openai" "d").1.chunks.any (fun c => c.provider == "huggingface")) = true ∧
    (get_document (update_embeddings (add_document emptyVS "huggingface" "d" "hello world")
        "openai") "openai" "d").1 = some "Initial document" := by
  decide

/-- C1 (amended): switching the embedding type (compared after stripping
whitespace) clears all in-memory indexes; but a subsequent access to a
previously-indexed document reloads the persisted index from disk as-is —
vectors computed under the previous provider included — rather than
rebuilding from original text, and only a document with no durable copy gets
a fresh index (holding just the dummy seed text embedded with the new
provider). -/
theorem C1_switch_clears_memory_but_reloads_disk (vs : VectorStoreState)
    (newType : String)
    (hdiff : pyStripString newType ≠ pyStripString vs.embedding_type) :
    (update_embeddings vs newType).stores = [] ∧
    (∀ docId persisted, dictGet vs.disk docId = some persisted →
      (get_store (update_embeddings vs newType) (pyStripString newType) docId).1 =
        faissLoadLocal persisted (pyStripString newType)) ∧
    (∀ docId, dictGet vs.disk docId = none →
      (get_store (update_embeddings vs newType) (pyStripString newType) docId).1 =
        faissFromTexts ["Initial document"] (pyStripString newType)) := by
  have hupd : update_embeddings vs newType =
      { embedding_type := pyStripString newType, stores := [], disk := vs.disk } := by
    rw [update_embeddings, if_pos hdiff]
  refine ⟨by rw [hupd], ?_, ?_⟩
  · intro docId persisted hdisk
    rw [hupd, get_store]
    rw [if_neg (by simp)]
    simp only [dictGet_nil, hdisk]
  · intro docId hdisk
    rw [hupd, get_store]
    rw [if_neg (by simp)]
    simp only [dictGet_nil, hdisk]

/-- Witness for C1's amended theorem: switch the store built in the
counterexample from `"huggingface"` to `"openai"` and access the indexed
document `"d"` (persisted) and the unknown document `"e"` (not persisted). -/
theorem C1_switch_clears_memory_but_reloads_disk_witness :
    (pyStripString "openai" ≠
        pyStripString (add_document emptyVS "huggingface" "d" "hello world").embedding_type ∧
      dictGet (add_document emptyVS "huggingface" "d" "hello world").disk "d" =
        some (faissAddTexts (faissFromTexts ["Initial document"] "huggingface")
          ["hello world"]) ∧
      dictGet (add_document emptyVS "huggingface" "d" "hello world").disk "e" = none) ∧
    (update_embeddings (add_document emptyVS "huggingface" "d" "hello world")
        "openai").stores = [] ∧
    (get_store (update_embeddings (add_document emptyVS "huggingface" "d" "hello world")
        "openai") (pyStripString "openai") "d").1 =
      faissLoadLocal (faissAddTexts (faissFromTexts ["Initial document"] "huggingface")
        ["hello world"]) (pyStripString "openai") ∧
    (get_store (update_embeddings (add_document emptyVS "huggingface" "d" "hello world")
        "openai") (pyStripString "openai") "e").1 =
      faissFromTexts ["Initial document"] (pyStripString "openai") := by
  have h := C1_switch_clears_memory_but_reloads_disk
    (add_document emptyVS "huggingface" "d" "hello world") "openai" (by decide)
  exact ⟨⟨by decide, by decide, by decide⟩, h.1,
    h.2.1 "d" _ (by decide), h.2.2 "e" (by decide)⟩


/-- C2: the claim that the user's question remains recorded in the session's
conversation history after a generation failure is false.  The question is
appended only to the per-request `ChatState` copy of the history (pydantic
copies the list on state construction), and `self.session_histories` is
written back only after the graph succeeds — so after a failing generation
the session's history is unchanged and the question is nowhere recorded. -/
theorem C2_failed_generation_history_counterexample :
    (process_chat_request { session_histories := [], vector_store := emptyVS }
        sampleConfig [] "./models" (fun t => [t]) (fun _ => .error "boom")
        { question := "hi", session_id := "sess", document_ids := [] }).1 =
      .error "Error processing chat request: boom" ∧
    dictGet (process_chat_request { session_histories := [], vector_store := emptyVS }
        sampleConfig [] "./models" (fun t => [t]) (fun _ => .error "boom")
        { question := "hi", session_id := "sess", document_ids := [] }).2.session_histories
      "sess" = none := by
  decide

/-- C2 (amended): a chat request whose generation step fails aborts as a
whole — the caller gets the wrapped error and no partial answer — and the
session's conversation history is left exactly as it was: the user's question
is NOT recorded (it lived only in the per-request state copy). -/
theorem C2_failed_generation_aborts_keeps_history :
    (∀ (s : ChatServiceState) (cfg : ModelConfig) (files : List String)
      (dir : String) (split : String → List String)
      (llm : Prompt → Except String String) (req : ChatRequest) (m : String),
      (process_chat_request s cfg files dir split llm req).1 = .error m →
      (process_chat_request s cfg files dir split llm req).2.session_histories =
        s.session_histories) ∧
    (∀ (s : ChatServiceState) (cfg : ModelConfig) (files : List String)
      (dir : String) (split : String → List String) (req : ChatRequest)
      (mp : Option String) (e : String) (llm : Prompt → Except String String),
      resolveModelPath cfg req files dir = .ok mp →
      (∀ p, llm p = .error e) →
      (process_chat_request s cfg files dir split llm req).1 =
        .error ("Error processing chat request: " ++ e)) := by
  constructor
  · intro s cfg files dir split llm req m herr
    rw [process_chat_request] at herr ⊢
    split
    · rfl
    · rename_i mp heq
      simp only [heq] at herr
      dsimp only at herr ⊢
      split
      · rfl
      · rename_i st3 vs1 heq2
        simp only [heq2] at herr
        exact absurd herr (by simp)
  · intro s cfg files dir split req mp e llm hres hllm
    simp only [process_chat_request, hres, runConversationGraph, generate_response, hllm]

/-- Witness for C2's amended theorem at the counterexample's concrete
inputs. -/
theorem C2_failed_generation_aborts_keeps_history_witness :
    (resolveModelPath sampleConfig
        { question := "hi", session_id := "sess", document_ids := [] } [] "./models" =
      .ok none) ∧
    (process_chat_request { session_histories := [], vector_store := emptyVS }
        sampleConfig [] "./models" (fun t => [t]) (fun _ => .error "gen failed")
        { question := "hi", session_id := "sess", document_ids := [] }).1 =
      .error "Error processing chat request: gen failed" ∧
    (process_chat_request { session_histories := [], vector_store := emptyVS }
        sampleConfig [] "./models" (fun t => [t]) (fun _ => .error "gen failed")
        { question := "hi", session_id := "sess", document_ids := [] }).2.session_histories =
      [] := by
  refine ⟨by decide, ?_, ?_⟩
  · exact C2_failed_generation_aborts_keeps_history.2 _ sampleConfig [] "./models" _ _
      none "gen failed" _ (by decide) (fun _ => rfl)
  · exact C2_failed_generation_aborts_keeps_history.1 _ sampleConfig [] "./models" _ _ _
      "Error processing chat request: gen failed"
      (C2_failed_generation_aborts_keeps_history.2 _ sampleConfig [] "./models" _ _
        none "gen failed" _ (by decide) (fun _ => rfl))


theorem update_embeddings_disk (vs : VectorStoreState) (ty : String) :
    (update_embeddings vs ty).disk = vs.disk := by
  rw [update_embeddings]
  split <;> rfl

theorem get_store_disk (vs : VectorStoreState) (cfgType docId : String) :
    (get_store vs cfgType docId).2.disk = vs.disk := by
  have hd : (if cfgType ≠ vs.embedding_type then update_embeddings vs cfgType else vs).disk
      = vs.disk := by
    split
    · exact update_embeddings_disk vs cfgType
    · rfl
  rw [get_store]
  dsimp only
  split <;> try split
  all_goals first
    | exact update_embeddings_disk vs cfgType
    | exact hd
    | rfl

theorem add_texts_disk_self (vs : VectorStoreState) (cfgType docId : String)
    (texts : List String) (hne : texts ≠ [])
    (hval : texts.filter (fun t => pyStripString t ≠ "") ≠ []) :
    (dictGet (add_texts vs cfgType docId texts).disk docId).isSome := by
  rw [add_texts, if_neg hne]
  dsimp only
  rw [if_neg hval]
  dsimp only
  rw [dictGet_dictSet_self]
  rfl

theorem add_texts_disk_preserved (vs : VectorStoreState) (cfgType docId j : String)
    (texts : List String) (h : (dictGet vs.disk j).isSome) :
    (dictGet (add_texts vs cfgType docId texts).disk j).isSome := by
  rw [add_texts]
  split
  · exact h
  · dsimp only
    split
    · exact h
    · dsimp only
      refine dictGet_isSome_dictSet _ _ _ _ ?_
      rw [get_store_disk]
      exact h

theorem delete_document_disk_preserved (vs : VectorStoreState) (docId j : String)
    (hne : j ≠ docId) (h : (dictGet vs.disk j).isSome) :
    (dictGet (delete_document vs docId).disk j).isSome := by
  rw [delete_document]
  dsimp only
  rwa [dictGet_dictErase_ne _ _ _ hne]

theorem process_pdfs_go_error (cfgType : String) (pre : List (PdfFile × String))
    (f : PdfFile) (i : String) (msg : String) (rest : List (PdfFile × String)) :
    ∀ (vs : VectorStoreState) (docIds : List String) (pages : Nat),
    (∀ p ∈ pre, p.1.failMode = .ok) →
    (f.failMode = .failBeforeAppend msg ∨ f.failMode = .failAtClose msg) →
    (process_pdfs_go cfgType vs (pre ++ (f, i) :: rest) docIds pages).1 =
      .error ("Error processing PDF " ++ f.filename ++ ": " ++ msg) := by
  induction pre with
  | nil =>
    intro vs docIds pages _ hf
    rcases hf with hf | hf <;>
      · rw [List.nil_append, process_pdfs_go, hf]
  | cons g pre' ih =>
    intro vs docIds pages hok hf
    rw [List.cons_append, process_pdfs_go, hok g (List.mem_cons_self g pre')]
    dsimp only
    split
    · exact ih _ _ _ (fun p hp => hok p (List.mem_cons_of_mem g hp)) hf
    · exact ih _ _ _ (fun p hp => hok p (List.mem_cons_of_mem g hp)) hf

theorem process_pdfs_go_disk_preserved (cfgType : String)
    (files : List (PdfFile × String)) :
    ∀ (vs : VectorStoreState) (docIds : List String) (pages : Nat) (j : String),
    (dictGet vs.disk j).isSome →
    (∀ p ∈ files, p.1.failMode = .ok ∨ p.2 ≠ j) →
    (dictGet (process_pdfs_go cfgType vs files docIds pages).2.disk j).isSome := by
  induction files with
  | nil => intro vs docIds pages j h _; exact h
  | cons g fs ih =>
    intro vs docIds pages j h hcond
    have hrest : ∀ p ∈ fs, p.1.failMode = .ok ∨ p.2 ≠ j :=
      fun p hp => hcond p (List.mem_cons_of_mem g hp)
    rw [process_pdfs_go]
    split
    · rename_i msg' heq
      have hne : g.2 ≠ j := by
        rcases hcond g (List.mem_cons_self g fs) with hc | hc
        · rw [heq] at hc; exact absurd hc (by simp)
        · exact hc
      dsimp only
      split
      · exact delete_document_disk_preserved _ _ _ (fun he => hne he.symm) h
      · exact h
    · dsimp only
      split
      · exact ih _ _ _ _ (add_texts_disk_preserved _ _ _ _ _ h) hrest
      · exact ih _ _ _ _ h hrest
    · rename_i msg' heq
      have hne : g.2 ≠ j := by
        rcases hcond g (List.mem_cons_self g fs) with hc | hc
        · rw [heq] at hc; exact absurd hc (by simp)
        · exact hc
      dsimp only
      split <;> try split
      all_goals
        first
          | exact delete_document_disk_preserved _ _ _ (fun he => hne he.symm)
              (add_texts_disk_preserved _ _ _ _ _ h)
          | exact delete_document_disk_preserved _ _ _ (fun he => hne he.symm) h
          | exact add_texts_disk_preserved _ _ _ _ _ h
          | exact h


theorem filter_strip_stable (l : List String) :
    (l.filter (fun t => pyStripString t ≠ "")).filter (fun t => pyStripString t ≠ "") =
      l.filter (fun t => pyStripString t ≠ "") := by
  rw [List.filter_eq_self]
  intro a ha
  exact (List.mem_filter.mp ha).2

theorem go_disk_preserved_upto_failure (cfgType : String) (f : PdfFile) (i : String)
    (rest : List (PdfFile × String)) (msg : String)
    (hf : f.failMode = .failBeforeAppend msg ∨ f.failMode = .failAtClose msg) :
    ∀ (c : List (PdfFile × String)) (vs : VectorStoreState) (docIds : List String)
      (pages : Nat) (j : String),
    (∀ p ∈ c, p.1.failMode = .ok) → i ≠ j → (dictGet vs.disk j).isSome →
    (dictGet (process_pdfs_go cfgType vs (c ++ (f, i) :: rest) docIds pages).2.disk j).isSome := by
  intro c
  induction c with
  | nil =>
    intro vs docIds pages j _ hij h
    rw [List.nil_append, process_pdfs_go]
    rcases hf with hf | hf <;> rw [hf] <;> dsimp only
    · split
      · exact delete_document_disk_preserved _ _ _ (fun he => hij he.symm) h
      · exact h
    · split <;> try split
      all_goals
        first
          | exact delete_document_disk_preserved _ _ _ (fun he => hij he.symm)
              (add_texts_disk_preserved _ _ _ _ _ h)
          | exact delete_document_disk_preserved _ _ _ (fun he => hij he.symm) h
          | exact add_texts_disk_preserved _ _ _ _ _ h
          | exact h
  | cons g c' ih =>
    intro vs docIds pages j hok hij h
    rw [List.cons_append, process_pdfs_go, hok g (List.mem_cons_self g c')]
    dsimp only
    split
    · exact ih _ _ _ _ (fun p hp => hok p (List.mem_cons_of_mem g hp)) hij
        (add_texts_disk_preserved _ _ _ _ _ h)
    · exact ih _ _ _ _ (fun p hp => hok p (List.mem_cons_of_mem g hp)) hij h

theorem go_disk_after_add (cfgType : String) (f : PdfFile) (i : String)
    (rest : List (PdfFile × String)) (msg : String)
    (hf : f.failMode = .failBeforeAppend msg ∨ f.failMode = .failAtClose msg) :
    ∀ (a : List (PdfFile × String)) (p : PdfFile × String) (b : List (PdfFile × String))
      (vs : VectorStoreState) (docIds : List String) (pages : Nat),
    (∀ q ∈ a, q.1.failMode = .ok) → p.1.failMode = .ok →
    (∀ q ∈ b, q.1.failMode = .ok) →
    p.1.pages.filter (fun t => pyStripString t ≠ "") ≠ [] → p.2 ≠ i →
    (dictGet (process_pdfs_go cfgType vs (a ++ p :: (b ++ (f, i) :: rest)) docIds pages).2.disk
      p.2).isSome := by
  intro a
  induction a with
  | nil =>
    intro p b vs docIds pages _ hpok hbok hchunks hpi
    rw [List.nil_append, process_pdfs_go, hpok]
    dsimp only
    rw [if_pos hchunks]
    exact go_disk_preserved_upto_failure cfgType f i rest msg hf b _ _ _ _ hbok
      (fun he => hpi he.symm)
      (add_texts_disk_self _ _ _ _ hchunks (by rw [filter_strip_stable]; exact hchunks))
  | cons g a' ih =>
    intro p b vs docIds pages haok hpok hbok hchunks hpi
    rw [List.cons_append, process_pdfs_go, haok g (List.mem_cons_self g a')]
    dsimp only
    split
    · exact ih p b _ _ _ (fun q hq => haok q (List.mem_cons_of_mem g hq)) hpok hbok hchunks hpi
    · exact ih p b _ _ _ (fun q hq => haok q (List.mem_cons_of_mem g hq)) hpok hbok hchunks hpi

/-- C10: when the i-th uploaded file of a batch fails, `process_pdfs` raises —
so the caller receives an error and none of the generated document ids — yet
every earlier file of the same call that contributed chunks keeps its document
persisted in the vector store: the per-file cleanup deletes at most the
failing file's own document. -/
theorem C10_partial_failure_keeps_earlier_documents (vs : VectorStoreState)
    (cfgType : String) (pre : List (PdfFile × String)) (f : PdfFile) (i : String)
    (msg : String) (rest : List (PdfFile × String))
    (hok : ∀ p ∈ pre, p.1.failMode = .ok)
    (hf : f.failMode = .failBeforeAppend msg ∨ f.failMode = .failAtClose msg) :
    (process_pdfs vs cfgType (pre ++ (f, i) :: rest)).1 =
      .error ("Error processing PDF " ++ f.filename ++ ": " ++ msg) ∧
    (∀ p ∈ pre, p.1.pages.filter (fun t => pyStripString t ≠ "") ≠ [] → p.2 ≠ i →
      (dictGet (process_pdfs vs cfgType (pre ++ (f, i) :: rest)).2.disk p.2).isSome) := by
  constructor
  · exact process_pdfs_go_error cfgType pre f i msg rest vs [] 0 hok hf
  · intro p hp hchunks hpi
    obtain ⟨a, b, hsplit⟩ := List.append_of_mem hp
    rw [process_pdfs, hsplit, List.append_assoc, List.cons_append]
    exact go_disk_after_add cfgType f i rest msg hf a p b _ _ _
      (fun q hq => hok q (by rw [hsplit]; exact List.mem_append_left _ hq))
      (hok p hp)
      (fun q hq => hok q (by
        rw [hsplit]
        exact List.mem_append_right _ (List.mem_cons_of_mem p hq)))
      hchunks hpi

/-- Witness for C10: one successful file (`a.pdf`, id `"A"`) followed by a
file whose close raises (`b.pdf`, id `"B"`): the call errors, and document
`"A"` stays persisted. -/
theorem C10_partial_failure_witness :
    ((process_pdfs emptyVS "huggingface"
        [({ filename := "a.pdf", pages := ["hello"], failMode := .ok }, "A"),
         ({ filename := "b.pdf", pages := ["world"], failMode := .failAtClose "io" }, "B")]).1 =
      .error "Error processing PDF b.pdf: io") ∧
    (dictGet (process_pdfs emptyVS "huggingface"
        [({ filename := "a.pdf", pages := ["hello"], failMode := .ok }, "A"),
         ({ filename := "b.pdf", pages := ["world"], failMode := .failAtClose "io" }, "B")]).2.disk
      "A").isSome := by
  have h := C10_partial_failure_keeps_earlier_documents emptyVS "huggingface"
    [({ filename := "a.pdf", pages := ["hello"], failMode := .ok }, "A")]
    { filename := "b.pdf", pages := ["world"], failMode := .failAtClose "io" } "B" "io" []
    (by intro p hp; simp at hp; rw [hp]) (Or.inr rfl)
  exact ⟨h.1, h.2 _ (List.mem_singleton.mpr rfl) (by decide) (by decide)⟩


theorem applyPresent_nil (u : ConfigUpdate) (c : ModelConfig) :
    applyPresent u c [] = c := rfl

theorem applyPresent_cons (u : ConfigUpdate) (c : ModelConfig) (p : NumParam)
    (ps : List NumParam) :
    applyPresent u c (p :: ps) =
      applyPresent u (match p.get u with | some v => p.set c v | none => c) ps := rfl

theorem applyNumericParams_all_valid (u : ConfigUpdate) :
    ∀ (ps : List NumParam) (c : ModelConfig),
    (∀ q ∈ ps, invalidNumField q u = false) →
    applyNumericParams u c ps = (applyPresent u c ps, none) := by
  intro ps
  induction ps with
  | nil => intro c _; rfl
  | cons p ps ih =>
    intro c hv
    rw [applyNumericParams, applyPresent_cons]
    cases hg : p.get u with
    | none => exact ih c (fun q hq => hv q (List.mem_cons_of_mem p hq))
    | some v =>
      have hr : numInRange p v = true := by
        have := hv p (List.mem_cons_self p ps)
        rw [invalidNumField, hg] at this
        simpa using this
      dsimp only
      rw [if_pos hr]
      exact ih _ (fun q hq => hv q (List.mem_cons_of_mem p hq))

theorem applyNumericParams_ok (u : ConfigUpdate) :
    ∀ (ps : List NumParam) (c c' : ModelConfig),
    applyNumericParams u c ps = (c', none) →
    c' = applyPresent u c ps ∧ ∀ q ∈ ps, invalidNumField q u = false := by
  intro ps
  induction ps with
  | nil =>
    intro c c' h
    rw [applyNumericParams] at h
    exact ⟨(Prod.mk.injEq _ _ _ _ ▸ h).1.symm, by simp⟩
  | cons p ps ih =>
    intro c c' h
    rw [applyNumericParams] at h
    rw [applyPresent_cons]
    cases hg : p.get u with
    | none =>
      rw [hg] at h
      obtain ⟨h1, h2⟩ := ih c c' h
      refine ⟨h1, ?_⟩
      intro q hq
      rcases List.mem_cons.mp hq with rfl | hq
      · rw [invalidNumField, hg]
      · exact h2 q hq
    | some v =>
      rw [hg] at h
      dsimp only at h
      by_cases hr : numInRange p v = true
      · rw [if_pos hr] at h
        obtain ⟨h1, h2⟩ := ih _ c' h
        refine ⟨h1, ?_⟩
        intro q hq
        rcases List.mem_cons.mp hq with rfl | hq
        · simp [invalidNumField, hg, hr]
        · exact h2 q hq
      · rw [if_neg hr] at h
        exact absurd (Prod.mk.injEq _ _ _ _ ▸ h).2 (by simp)

theorem applyNumericParams_error (u : ConfigUpdate) :
    ∀ (ps : List NumParam) (c c' : ModelConfig) (e : String),
    applyNumericParams u c ps = (c', some e) →
    ∃ ps1 p ps2, ps = ps1 ++ p :: ps2 ∧ invalidNumField p u = true ∧
      (∀ q ∈ ps1, invalidNumField q u = false) ∧ e = numParamMsg p ∧
      c' = applyPresent u c ps1 := by
  intro ps
  induction ps with
  | nil =>
    intro c c' e h
    rw [applyNumericParams] at h
    exact absurd (Prod.mk.injEq _ _ _ _ ▸ h).2 (by simp)
  | cons p ps ih =>
    intro c c' e h
    rw [applyNumericParams] at h
    cases hg : p.get u with
    | none =>
      rw [hg] at h
      obtain ⟨ps1, q, ps2, hps, hinv, hval, he, hc⟩ := ih c c' e h
      refine ⟨p :: ps1, q, ps2, by rw [hps, List.cons_append], hinv, ?_, he, ?_⟩
      · intro r hr
        rcases List.mem_cons.mp hr with rfl | hr
        · rw [invalidNumField, hg]
        · exact hval r hr
      · rw [applyPresent_cons, hg]
        exact hc
    | some v =>
      rw [hg] at h
      dsimp only at h
      by_cases hr : numInRange p v = true
      · rw [if_pos hr] at h
        obtain ⟨ps1, q, ps2, hps, hinv, hval, he, hc⟩ := ih _ c' e h
        refine ⟨p :: ps1, q, ps2, by rw [hps, List.cons_append], hinv, ?_, he, ?_⟩
        · intro r hrr
          rcases List.mem_cons.mp hrr with rfl | hrr
          · simp [invalidNumField, hg, hr]
          · exact hval r hrr
        · rw [applyPresent_cons, hg]
          exact hc
      · rw [if_neg hr] at h
        have h1 := (Prod.mk.injEq _ _ _ _ ▸ h).1
        have h2 := (Prod.mk.injEq _ _ _ _ ▸ h).2
        refine ⟨[], p, ps, rfl, ?_, by simp, by simpa using h2.symm, by rw [applyPresent_nil, h1]⟩
        rw [invalidNumField, hg]
        simpa using hr

theorem applyNumericParams_isSome_of_invalid (u : ConfigUpdate) :
    ∀ (ps : List NumParam) (c : ModelConfig),
    (∃ q ∈ ps, invalidNumField q u = true) →
    (applyNumericParams u c ps).2.isSome := by
  intro ps
  induction ps with
  | nil => rintro c ⟨q, hq, _⟩; simp at hq
  | cons p ps ih =>
    rintro c ⟨q, hq, hinv⟩
    rw [applyNumericParams]
    cases hg : p.get u with
    | none =>
      rcases List.mem_cons.mp hq with rfl | hq
      · rw [invalidNumField, hg] at hinv
        simp at hinv
      · exact ih c ⟨q, hq, hinv⟩
    | some v =>
      dsimp only
      by_cases hr : numInRange p v = true
      · rw [if_pos hr]
        rcases List.mem_cons.mp hq with rfl | hq
        · simp [invalidNumField, hg, hr] at hinv
        · exact ih _ ⟨q, hq, hinv⟩
      · rw [if_neg hr]
        rfl


theorem updateConfigAfterModelType_error_spec (c0 : ModelConfig) (u : ConfigUpdate)
    (flag : Bool) (e : String)
    (h : (updateConfigAfterModelType c0 u flag).error = some e) :
    (∃ ps1 p ps2, numeric_params = ps1 ++ p :: ps2 ∧ invalidNumField p u = true ∧
      (∀ q ∈ ps1, invalidNumField q u = false) ∧ e = numParamMsg p ∧
      (updateConfigAfterModelType c0 u flag).config = applyPresent u c0 ps1) ∨
    ((∀ q ∈ numeric_params, invalidNumField q u = false) ∧
      invalidEmbeddingTypeField u = true ∧ e = invalidEmbeddingTypeMsg ∧
      (updateConfigAfterModelType c0 u flag).config = applyPresent u c0 numeric_params) := by
  have heta : applyNumericParams u c0 numeric_params =
      ((applyNumericParams u c0 numeric_params).1,
        (applyNumericParams u c0 numeric_params).2) := rfl
  rw [updateConfigAfterModelType] at h ⊢
  dsimp only at h ⊢
  cases herr : (applyNumericParams u c0 numeric_params).2 with
  | some e' =>
    rw [herr] at h
    dsimp only at h ⊢
    obtain ⟨ps1, p, ps2, hps, hinv, hval, he, hc⟩ :=
      applyNumericParams_error u numeric_params c0 _ e' (by rw [heta, herr])
    left
    refine ⟨ps1, p, ps2, hps, hinv, hval, ?_, hc⟩
    have he' : e' = e := by simpa using h
    rw [← he', he]
  | none =>
    rw [herr] at h
    dsimp only at h ⊢
    obtain ⟨hc, hval⟩ := applyNumericParams_ok u numeric_params c0 _ (by rw [heta, herr])
    cases het : u.embedding_type with
    | none => rw [het] at h; simp at h
    | some et =>
      rw [het] at h
      dsimp only at h ⊢
      by_cases hv : et = "huggingface" ∨ et = "openai"
      · rw [if_pos hv] at h
        simp at h
      · rw [if_neg hv] at h ⊢
        right
        refine ⟨hval, ?_, by simpa using h.symm, by simpa using hc⟩
        rw [invalidEmbeddingTypeField, het]
        simpa using hv

theorem updateConfigAfterModelType_isSome (c0 : ModelConfig) (u : ConfigUpdate) (flag : Bool)
    (h : (∃ q ∈ numeric_params, invalidNumField q u = true) ∨
      invalidEmbeddingTypeField u = true) :
    ((updateConfigAfterModelType c0 u flag).error).isSome := by
  have heta : applyNumericParams u c0 numeric_params =
      ((applyNumericParams u c0 numeric_params).1,
        (applyNumericParams u c0 numeric_params).2) := rfl
  rw [updateConfigAfterModelType]
  dsimp only
  cases herr : (applyNumericParams u c0 numeric_params).2 with
  | some e' => rfl
  | none =>
    obtain ⟨hc, hval⟩ := applyNumericParams_ok u numeric_params c0 _ (by rw [heta, herr])
    rcases h with ⟨q, hq, hinv⟩ | hemb
    · rw [hval q hq] at hinv
      simp at hinv
    · cases het : u.embedding_type with
      | none => simp [invalidEmbeddingTypeField, het] at hemb
      | some et =>
        simp only [invalidEmbeddingTypeField, het] at hemb
        dsimp only
        rw [if_neg (by simpa using hemb)]
        rfl


/-- C4 (amended): an update containing an out-of-range or unknown value makes
`update_config` raise a validation error naming the first offending field in
processing order (`model_type`, then the numeric parameters in iteration
order, then `embedding_type`) — but the stored configuration is NOT left
unchanged: fields processed before the offending one are already applied
(atomic per field, not per call), while the offending and later fields are
not. -/
theorem C4_update_config_validation :
    (∀ (c : ModelConfig) (u : ConfigUpdate), hasInvalidField u = true →
      ((update_config c u).error).isSome) ∧
    (∀ (c : ModelConfig) (u : ConfigUpdate) (e : String),
      (update_config c u).error = some e →
      (invalidModelTypeField u = true ∧ e = invalidModelTypeMsg ∧
        (update_config c u).config = c) ∨
      (∃ ps1 p ps2, numeric_params = ps1 ++ p :: ps2 ∧ invalidNumField p u = true ∧
        (∀ q ∈ ps1, invalidNumField q u = false) ∧ e = numParamMsg p ∧
        (update_config c u).config = applyPresent u (afterModelTypeStep c u) ps1) ∨
      ((∀ q ∈ numeric_params, invalidNumField q u = false) ∧
        invalidEmbeddingTypeField u = true ∧ e = invalidEmbeddingTypeMsg ∧
        (update_config c u).config =
          applyPresent u (afterModelTypeStep c u) numeric_params)) := by
  constructor
  · intro c u h
    cases hm : u.model_type with
    | none =>
      have hcfg : update_config c u = updateConfigAfterModelType c u false := by
        rw [update_config, hm]
      have hstep : afterModelTypeStep c u = c := by rw [afterModelTypeStep, hm]
      rw [hcfg]
      apply updateConfigAfterModelType_isSome
      rw [hasInvalidField] at h
      have hmf : invalidModelTypeField u = false := by rw [invalidModelTypeField, hm]
      rw [hmf] at h
      simpa only [Bool.false_or, Bool.or_eq_true, List.any_eq_true] using h
    | some mt =>
      by_cases hv : mt = "openai" ∨ mt = "local"
      · have hcfg : update_config c u =
            updateConfigAfterModelType (afterModelTypeStep c u) u
              (decide (mt ≠ c.model_type)) := by
          simp only [update_config, afterModelTypeStep, hm, if_pos hv]
        rw [hcfg]
        apply updateConfigAfterModelType_isSome
        rw [hasInvalidField] at h
        have hmf : invalidModelTypeField u = false := by
          simp [invalidModelTypeField, hm, hv]
        rw [hmf] at h
        simpa only [Bool.false_or, Bool.or_eq_true, List.any_eq_true] using h
      · rw [update_config, hm]
        dsimp only
        rw [if_neg hv]
        rfl
  · intro c u e h
    cases hm : u.model_type with
    | none =>
      have hcfg : update_config c u = updateConfigAfterModelType c u false := by
        rw [update_config, hm]
      have hstep : afterModelTypeStep c u = c := by rw [afterModelTypeStep, hm]
      rw [hcfg] at h ⊢
      rw [hstep]
      rcases updateConfigAfterModelType_error_spec c u false e h with hnum | hemb
      · exact Or.inr (Or.inl hnum)
      · exact Or.inr (Or.inr hemb)
    | some mt =>
      by_cases hv : mt = "openai" ∨ mt = "local"
      · have hcfg : update_config c u =
            updateConfigAfterModelType (afterModelTypeStep c u) u
              (decide (mt ≠ c.model_type)) := by
          simp only [update_config, afterModelTypeStep, hm, if_pos hv]
        rw [hcfg] at h ⊢
        rcases updateConfigAfterModelType_error_spec _ u _ e h with hnum | hemb
        · exact Or.inr (Or.inl hnum)
        · exact Or.inr (Or.inr hemb)
      · have hcfg : update_config c u =
            { config := c, error := some invalidModelTypeMsg,
              shouldUpdateEmbeddings := false } := by
          rw [update_config, hm]
          dsimp only
          rw [if_neg hv]
        rw [hcfg] at h ⊢
        refine Or.inl ⟨?_, by simpa using h.symm, rfl⟩
        simp [invalidModelTypeField, hm, hv]


/-- C4: the claim that a rejected update leaves the stored configuration
unchanged is false — validation is interleaved with mutation.  Updating
`{temperature: 0, top_p: 2}` raises the `top_p` range error, yet the valid
`temperature` processed before it is already stored. -/
theorem C4_rejected_update_mutates_counterexample :
    update_config sampleConfig { temperature := some 0, top_p := some 2 } =
      { config := { sampleConfig with temperature := 0 },
        error := some "top_p must be between 0 and 1",
        shouldUpdateEmbeddings := false } ∧
    ({ sampleConfig with temperature := 0 } : ModelConfig) ≠ sampleConfig := by
  decide

/-- Witness for C4's amended theorem at the counterexample input. -/
theorem C4_update_config_validation_witness :
    (hasInvalidField { temperature := some 0, top_p := some 2 } = true ∧
      ((update_config sampleConfig { temperature := some 0, top_p := some 2 }).error).isSome) ∧
    ((update_config sampleConfig { temperature := some 0, top_p := some 2 }).error =
        some "top_p must be between 0 and 1" ∧
      ((invalidModelTypeField { temperature := some 0, top_p := some 2 } = true ∧
          "top_p must be between 0 and 1" = invalidModelTypeMsg ∧
          (update_config sampleConfig
            { temperature := some 0, top_p := some 2 }).config = sampleConfig) ∨
        (∃ ps1 p ps2, numeric_params = ps1 ++ p :: ps2 ∧
          invalidNumField p { temperature := some 0, top_p := some 2 } = true ∧
          (∀ q ∈ ps1, invalidNumField q { temperature := some 0, top_p := some 2 } = false) ∧
          "top_p must be between 0 and 1" = numParamMsg p ∧
          (update_config sampleConfig { temperature := some 0, top_p := some 2 }).config =
            applyPresent { temperature := some 0, top_p := some 2 }
              (afterModelTypeStep sampleConfig { temperature := some 0, top_p := some 2 })
              ps1) ∨
        ((∀ q ∈ numeric_params,
            invalidNumField q { temperature := some 0, top_p := some 2 } = false) ∧
          invalidEmbeddingTypeField { temperature := some 0, top_p := some 2 } = true ∧
          "top_p must be between 0 and 1" = invalidEmbeddingTypeMsg ∧
          (update_config sampleConfig { temperature := some 0, top_p := some 2 }).config =
            applyPresent { temperature := some 0, top_p := some 2 }
              (afterModelTypeStep sampleConfig { temperature := some 0, top_p := some 2 })
              numeric_params))) :=
  ⟨⟨by decide, C4_update_config_validation.1 sampleConfig _ (by decide)⟩,
    ⟨by decide, C4_update_config_validation.2 sampleConfig _ _ (by decide)⟩⟩

end PDFSeek
